import Mathlib

/-!
# Verification of the InternAI interview-orchestration backend

Shallow embedding of the core of the `Intern_Ai` backend (Python) in Lean 4:

* the five-dimension evaluation parser of
  `backend/engines/round_evaluators/technical_evaluator.py`,
* the weighted-score computation of
  `backend/models/evaluation_models.py` (`ScoringThresholds.calculate_weighted_score`)
  including an exact model of the IEEE-754 double arithmetic Python uses,
* the model validation of `backend/models/evaluation_models.py`
  (`AnswerEvaluation` / `EvaluationScore` pydantic validators),
* the session state machine of `backend/engines/interview_orchestrator.py`
  (`process_answer`, `_should_ask_followup`, `get_next_phase`) under the shipped
  demo preset of `backend/config/evaluation_config.py`,
* the interruption decision logic of `backend/engines/interruption_analyzer.py`
  (`analyze_for_interruption`, `clear_session`), and
* the interruption cap of `backend/main.py` (`check_interruption`).

Theorems at the end settle the behavioural claims about these components.
-/

namespace InternAI

/-! ## The five rubric dimensions -/

/-- The five fixed scoring dimensions used by every round evaluator. -/
inductive Dim where
  | technical_depth
  | concept_accuracy
  | structured_thinking
  | communication_clarity
  | confidence_consistency
deriving DecidableEq, Repr

/-- `required_dimensions` of `technical_evaluator._parse_technical_evaluation`,
in source order. -/
def requiredDimensions : List Dim :=
  [Dim.technical_depth, Dim.concept_accuracy, Dim.structured_thinking,
   Dim.communication_clarity, Dim.confidence_consistency]

/-! ## Python-style helpers

Small total functions mirroring the Python string/number operations the
backend uses (`str.strip`, `str.split`, `str.replace`, `int(...)`, dict
insertion order).  They work on the character lists underlying `String`
with structural (fuel-based) recursion; a fuel of `length + 1` always
suffices because every step consumes at least one character. -/

/-- Is `p` a prefix of `l`? -/
def isPrefixCh : List Char → List Char → Bool
  | [], _ => true
  | _ :: _, [] => false
  | p :: ps, c :: cs => p = c && isPrefixCh ps cs

/-- Left-to-right scan of Python `s.split(sep)` (keeping empty pieces). -/
def splitOnChAux : ℕ → List Char → List Char → List Char → List (List Char)
  | 0, _, _, acc => [acc.reverse]
  | fuel + 1, l, sep, acc =>
    if isPrefixCh sep l then
      acc.reverse :: splitOnChAux fuel (l.drop sep.length) sep []
    else
      match l with
      | [] => [acc.reverse]
      | c :: rest => splitOnChAux fuel rest sep (c :: acc)

/-- Python `s.split(sep)` on character lists (`sep` nonempty). -/
def splitOnCh (l sep : List Char) : List (List Char) :=
  splitOnChAux (l.length + 1) l sep []

/-- Left-to-right non-overlapping Python `s.replace(pat, rep)`
(`pat` nonempty). -/
def replaceChAux : ℕ → List Char → List Char → List Char → List Char
  | 0, l, _, _ => l
  | fuel + 1, l, pat, rep =>
    if isPrefixCh pat l then
      rep ++ replaceChAux fuel (l.drop pat.length) pat rep
    else
      match l with
      | [] => []
      | c :: rest => c :: replaceChAux fuel rest pat rep

/-- Python `s.replace(pat, rep)` on character lists (`pat` nonempty). -/
def replaceCh (l pat rep : List Char) : List Char :=
  replaceChAux (l.length + 1) l pat rep

/-- Substring scan for Python `pat in s`. -/
def containsChAux : ℕ → List Char → List Char → Bool
  | 0, _, _ => false
  | fuel + 1, l, pat =>
    if isPrefixCh pat l then true
    else
      match l with
      | [] => false
      | _ :: rest => containsChAux fuel rest pat

/-- Python `pat in s` on character lists. -/
def containsCh (l pat : List Char) : Bool :=
  containsChAux (l.length + 1) l pat

/-- Python `s.strip()`: drop whitespace from both ends.  (Python also
strips `\x0b`/`\x0c`, which never occur in the texts at hand.) -/
def trimCh (l : List Char) : List Char :=
  ((l.dropWhile Char.isWhitespace).reverse.dropWhile Char.isWhitespace).reverse

/-- Split at every character satisfying `p`, keeping empty pieces. -/
def splitPredChAux (p : Char → Bool) : List Char → List Char → List (List Char)
  | [], acc => [acc.reverse]
  | c :: rest, acc =>
    if p c then acc.reverse :: splitPredChAux p rest []
    else splitPredChAux p rest (c :: acc)

/-- Join with a separator. -/
def intercalateCh (sep : List Char) : List (List Char) → List Char
  | [] => []
  | [x] => x
  | x :: xs => x ++ sep ++ intercalateCh sep xs

/-- Python `s.strip()`. -/
def pyStrip (s : String) : String := String.mk (trimCh s.data)

/-- Python `s.split(sep)` (`sep` nonempty). -/
def pySplitOn (s sep : String) : List String :=
  (splitOnCh s.data sep.data).map String.mk

/-- Python `s.replace(pat, rep)` (`pat` nonempty). -/
def pyReplace (s pat rep : String) : String :=
  String.mk (replaceCh s.data pat.data rep.data)

/-- Python `s.startswith(p)`. -/
def pyStartsWith (s p : String) : Bool := isPrefixCh p.data s.data

/-- Python `s.endswith(p)`. -/
def pyEndsWith (s p : String) : Bool :=
  isPrefixCh p.data.reverse s.data.reverse

/-- Python `s.lower()` (ASCII, which is all that occurs here). -/
def pyLower (s : String) : String := String.mk (s.data.map Char.toLower)

/-- Python `s.upper()` (ASCII). -/
def pyUpper (s : String) : String := String.mk (s.data.map Char.toUpper)

/-- Python `s[n:]` (character-based slicing). -/
def pyDrop (s : String) (n : ℕ) : String := String.mk (s.data.drop n)

/-- Python `len(s)` in characters. -/
def pyLen (s : String) : ℕ := s.data.length

/-- Python `s.split()` (no argument): split on whitespace runs, dropping
empty pieces. Used for word counts. -/
def pyWords (s : String) : List String :=
  ((splitPredChAux Char.isWhitespace s.data []).filter
    (fun w => w ≠ [])).map String.mk

/-- Python `t in s` substring containment. -/
def strContains (s t : String) : Bool :=
  containsCh s.data t.data

/-- Python `s.split(sep, 1)[1]`: everything after the first occurrence of
`sep` (assuming `sep` occurs). -/
def afterFirst (s sep : String) : String :=
  String.mk (intercalateCh sep.data (splitOnCh s.data sep.data).tail)

/-- Python `s.split(':')[1]`: the second colon-separated field.
`none` when there is no colon (Python would raise `IndexError`). -/
def secondField (s : String) : Option String :=
  ((splitOnCh s.data [':']).get? 1).map String.mk

/-- Digits-with-underscores body of a Python integer literal:
underscores may only appear singly between digits. -/
def pyIntDigitsOk (l : List Char) : Bool :=
  match l with
  | [] => false
  | c :: rest =>
    c.isDigit &&
      (rest.all (fun d => d.isDigit || d = '_')) &&
      (l.getLast? ≠ some '_') &&
      !(List.zip l rest).any (fun p => p.1 = '_' && p.2 = '_')

/-- Decimal value of a digit list. -/
def digitsVal (l : List Char) : ℕ :=
  l.foldl (fun n c => n * 10 + (c.toNat - 48)) 0

/-- Python `int(s)` on an already-stripped string: optional sign, then
digits (with optional single grouping underscores). `none` models
`ValueError`. -/
def pyInt (s : String) : Option Int :=
  let l := s.data
  match l with
  | '+' :: rest =>
    if pyIntDigitsOk rest then some (digitsVal (rest.filter Char.isDigit) : ℤ) else none
  | '-' :: rest =>
    if pyIntDigitsOk rest then some (-(digitsVal (rest.filter Char.isDigit) : ℤ)) else none
  | _ =>
    if pyIntDigitsOk l then some (digitsVal (l.filter Char.isDigit) : ℤ) else none

/-- Insert-or-update into an insertion-ordered association list, mirroring
Python `dict` key assignment (keys are unique): an existing key keeps its
position, a new key is appended at the end. -/
def dictSet {α β : Type} [DecidableEq α] :
    List (α × β) → α → β → List (α × β)
  | [], k, v => [(k, v)]
  | p :: rest, k, v =>
    if p.1 = k then (k, v) :: rest else p :: dictSet rest k v

/-- Python `m.get(k, d)` on an association list. -/
def dictGet {α β : Type} [DecidableEq α] : List (α × β) → α → β → β
  | [], _, d => d
  | p :: rest, k, d => if p.1 = k then p.2 else dictGet rest k d

/-- Python `k in m` on an association list. -/
def dictHas {α β : Type} [DecidableEq α] : List (α × β) → α → Bool
  | [], _ => false
  | p :: rest, k => p.1 = k || dictHas rest k

/-! ## Exact model of Python float (IEEE-754 binary64) arithmetic

`ScoringThresholds.calculate_weighted_score` computes
`int(sum(scores[dim] * weights[dim] for dim in scores))` with Python floats.
Every number arising there is a *dyadic* rational `num / 2^exp`, which we
represent exactly; each Python float operation (literal conversion,
`int * float`, `float + float`) rounds its exact result to the nearest
binary64 value, 53 significant bits with ties to even, which
`flRatPos` / `dyFl` implement exactly.  The magnitudes arising here are far
from the binary64 overflow and subnormal ranges, so the model coincides
with binary64 arithmetic. -/

/-- An exact dyadic rational `num / 2^exp` (values need not be
normalized). -/
structure Dyadic where
  num : ℤ
  exp : ℕ
deriving DecidableEq, Repr

/-- Number of halvings of `n` until 0, fuelled (the fuel `n + 1` always
suffices): `bitLen n` is the bit length of `n`, so
`2 ^ (bitLen n - 1) ≤ n < 2 ^ bitLen n` for `n > 0`. -/
def bitLenAux : ℕ → ℕ → ℕ
  | 0, _ => 0
  | fuel + 1, n => if n = 0 then 0 else bitLenAux fuel (n / 2) + 1

/-- Bit length of a natural number. -/
def bitLen (n : ℕ) : ℕ := bitLenAux (n + 1) n

/-- `round(a / b)` for naturals, ties to even. -/
def roundDivHalfEven (a b : ℕ) : ℕ :=
  let q := a / b
  let r := a % b
  if 2 * r < b then q
  else if b < 2 * r then q + 1
  else if q % 2 = 0 then q else q + 1

/-- The binary64 value nearest to the positive rational `p / q` (ties to
even), as an exact dyadic: with `e = ⌊log2 (p/q)⌋`, the rounded significand
is `round(p/q · 2^(52-e))` and the value is that times `2^(e-52)`. -/
def flRatPos (p q : ℕ) : Dyadic :=
  let bp := bitLen p
  let bq := bitLen q
  let e : ℤ := if q * 2 ^ bp ≤ p * 2 ^ bq then (bp : ℤ) - bq else (bp : ℤ) - bq - 1
  let s1 : ℕ := (52 - e).toNat
  let s2 : ℕ := (e - 52).toNat
  let m := roundDivHalfEven (p * 2 ^ s1) (q * 2 ^ s2)
  { num := (m : ℤ) * 2 ^ s2, exp := s1 }

/-- Round an exact dyadic to the nearest binary64 value (ties to even). -/
def dyFl (x : Dyadic) : Dyadic :=
  if x.num = 0 then { num := 0, exp := 0 }
  else
    let r := flRatPos x.num.natAbs (2 ^ x.exp)
    if x.num < 0 then { num := -r.num, exp := r.exp } else r

/-- Exact sum of two dyadics (Python's float `+` is `dyFl` of this). -/
def dyAdd (x y : Dyadic) : Dyadic :=
  if x.exp ≤ y.exp then
    { num := x.num * 2 ^ (y.exp - x.exp) + y.num, exp := y.exp }
  else
    { num := x.num + y.num * 2 ^ (x.exp - y.exp), exp := x.exp }

/-- Exact product of an integer and a dyadic (Python's `int * float` is
`dyFl` of this). -/
def dyMulInt (s : ℤ) (y : Dyadic) : Dyadic :=
  { num := s * y.num, exp := y.exp }

/-- Python `int(x)` on a float value `num / 2^exp`: truncation toward
zero, which is `Int.div` (T-division). -/
def pyTrunc (x : Dyadic) : ℤ :=
  Int.div x.num (2 ^ x.exp)

/-- The binary64 value of the literal `0.30` (etc.): the weights dict of
`ScoringThresholds.dimension_weights`. -/
def dimWeight : Dim → Dyadic
  | Dim.technical_depth => flRatPos 30 100
  | Dim.concept_accuracy => flRatPos 25 100
  | Dim.structured_thinking => flRatPos 20 100
  | Dim.communication_clarity => flRatPos 15 100
  | Dim.confidence_consistency => flRatPos 10 100

/-- `ScoringThresholds.calculate_weighted_score`:
`int(sum(scores[dim] * weights[dim] for dim in scores))`, with the float
product and running float sum each rounded to binary64 as Python does.
The association list carries the `scores` dict in its insertion order,
which is the order Python's `sum` consumes. -/
def calculate_weighted_score (scores : List (Dim × ℤ)) : ℤ :=
  pyTrunc (scores.foldl
    (fun acc ds => dyFl (dyAdd acc (dyFl (dyMulInt ds.2 (dimWeight ds.1)))))
    { num := 0, exp := 0 })

/-- The specification's weights `0.30, 0.25, 0.20, 0.15, 0.10`, written as
percentages (so `specWeight d / 100` is the exact rational weight). -/
def specWeight : Dim → ℤ
  | Dim.technical_depth => 30
  | Dim.concept_accuracy => 25
  | Dim.structured_thinking => 20
  | Dim.communication_clarity => 15
  | Dim.confidence_consistency => 10

/-- `floor(Σ weightᵢ × scoreᵢ)` with exact rational arithmetic — the value
the specification sentence (P3) asserts `overall_score` equals.  The sum
is `(Σ specWeight dᵢ · scoreᵢ) / 100` exactly, so its floor is the floor
division `Int.fdiv` by 100. -/
def specWeightedScore (scores : List (Dim × ℤ)) : ℤ :=
  Int.fdiv (scores.foldl (fun acc ds => acc + ds.2 * specWeight ds.1) 0) 100

/-! ## The technical evaluator's tolerant parser

`technical_evaluator._parse_technical_evaluation`, line by line.  The three
HR/Technical/SystemDesign parsers share this structure; the claims cite the
technical one. -/

/-- One entry of `score_details` (`EvaluationScore` of
`models/evaluation_models.py`). -/
structure EvalScore where
  dimension : Dim
  score : ℤ
  evidence : String
  improvement : Option String
deriving DecidableEq, Repr

/-- The content of an `AnswerEvaluation`
(`models/evaluation_models.py`), before/after pydantic validation. -/
structure ParsedEval where
  question_id : ℤ
  round_type : String
  scores : List (Dim × ℤ)
  score_details : List EvalScore
  overall_score : ℤ
  strengths : List String
  weaknesses : List String
  red_flags : List String
  requires_followup : Bool
  followup_reason : Option String
  suggested_followup : Option String
  difficulty_adjustment : String
deriving DecidableEq, Repr

/-- The parser's mutable locals while scanning lines.  `dim_evidence`
models the Python local `dimension_evidence`, which persists across
iterations; `dimension_score`, `current_dimension` and
`dimension_improvement` are never read outside the branch that assigns
them, so they need no field. -/
structure ParseSt where
  scores : List (Dim × ℤ)
  details : List EvalScore
  strengths : List String
  weaknesses : List String
  red_flags : List String
  requires_followup : Bool
  followup_reason : Option String
  suggested_followup : Option String
  difficulty_adjustment : String
  dim_evidence : String
deriving Repr

/-- Initial parser state (`technical_evaluator.py` lines 184–198). -/
def initParseSt : ParseSt :=
  { scores := [], details := [], strengths := [], weaknesses := [],
    red_flags := [], requires_followup := false, followup_reason := none,
    suggested_followup := none, difficulty_adjustment := "maintain",
    dim_evidence := "" }

/-- The uppercase key of each dimension in the LLM output format. -/
def dimKeyStr : Dim → String
  | Dim.technical_depth => "TECHNICAL_DEPTH"
  | Dim.concept_accuracy => "CONCEPT_ACCURACY"
  | Dim.structured_thinking => "STRUCTURED_THINKING"
  | Dim.communication_clarity => "COMMUNICATION_CLARITY"
  | Dim.confidence_consistency => "CONFIDENCE_CONSISTENCY"

/-- `line.split(':', 1)[1].strip() if ':' in line else ""`. -/
def textAfterColon (line : String) : String :=
  if strContains line ":" then pyStrip (afterFirst line ":") else ""

/-- `[s.strip() for s in text.split('|') if s.strip()]`. -/
def pipeSplit (text : String) : List String :=
  ((pySplitOn text "|").map pyStrip).filter (fun s => s ≠ "")

/-- The three per-dimension branches of the parser's `elif` chain for one
dimension `d` (score line, `_EVIDENCE` line, `_IMPROVEMENT` line); `none`
when the line belongs to no branch of `d`. -/
def handleDimLine (st : ParseSt) (line : String) (d : Dim) : Option ParseSt :=
  let key := dimKeyStr d
  if pyStartsWith line (key ++ ":") then
    -- try: scores[d] = int(line.split(':')[1].strip()) except: scores[d] = 0
    let n :=
      match secondField line with
      | some t => (pyInt (pyStrip t)).getD 0
      | none => 0
    some { st with scores := dictSet st.scores d n }
  else if pyStartsWith line (key ++ "_EVIDENCE:") then
    some { st with dim_evidence := textAfterColon line }
  else if pyStartsWith line (key ++ "_IMPROVEMENT:") then
    let imp := textAfterColon line
    let ev := if st.dim_evidence ≠ "" then st.dim_evidence else "No evidence provided"
    let sc := dictGet st.scores d 0
    let entry : EvalScore :=
      if imp ≠ "" ∧ imp ≠ "NONE" then
        { dimension := d, score := sc, evidence := ev, improvement := some imp }
      else
        { dimension := d, score := sc, evidence := ev, improvement := none }
    some { st with details := st.details ++ [entry] }
  else
    none

/-- Recurse through the five dimensions' branches in source order. -/
def handleDimLines (st : ParseSt) (line : String) : List Dim → Option ParseSt
  | [] => none
  | d :: ds =>
    match handleDimLine st line d with
    | some st2 => some st2
    | none => handleDimLines st line ds

/-- The feedback/follow-up/difficulty branches of the `elif` chain. -/
def handleOtherLine (st : ParseSt) (line : String) : ParseSt :=
  if pyStartsWith line "STRENGTHS:" then
    { st with strengths := pipeSplit (textAfterColon line) }
  else if pyStartsWith line "WEAKNESSES:" then
    { st with weaknesses := pipeSplit (textAfterColon line) }
  else if pyStartsWith line "RED_FLAGS:" then
    let t := textAfterColon line
    if t ≠ "" ∧ t ≠ "NONE" then { st with red_flags := pipeSplit t } else st
  else if pyStartsWith line "REQUIRES_FOLLOWUP:" then
    { st with requires_followup := strContains (pyUpper line) "YES" }
  else if pyStartsWith line "FOLLOWUP_REASON:" then
    let t := textAfterColon line
    if t ≠ "" ∧ t ≠ "NONE" then { st with followup_reason := some t } else st
  else if pyStartsWith line "SUGGESTED_FOLLOWUP:" then
    let t := textAfterColon line
    if t ≠ "" ∧ t ≠ "NONE" then { st with suggested_followup := some t } else st
  else if pyStartsWith line "DIFFICULTY_ADJUSTMENT:" then
    let da :=
      match secondField line with
      | some t => pyLower (pyStrip t)
      | none => "maintain"
    if da = "decrease" ∨ da = "maintain" ∨ da = "increase" then
      { st with difficulty_adjustment := da }
    else
      { st with difficulty_adjustment := "maintain" }
  else
    st

/-- One loop iteration: strip the line, skip blank/code-fence lines, then
run the `elif` chain (dimension branches first, in source order). -/
def parseLineStep (st : ParseSt) (rawLine : String) : ParseSt :=
  let line := pyStrip rawLine
  if line = "" ∨ pyStartsWith line "```" then st
  else
    match handleDimLines st line requiredDimensions with
    | some st2 => st2
    | none => handleOtherLine st line

/-- Fallback evidence injected for a dimension the LLM omitted
(`technical_evaluator.py` line 411). -/
def fallbackEvidence : String := "No evaluation data available from LLM response"

/-- Fallback improvement injected for a dimension the LLM omitted
(`technical_evaluator.py` line 412). -/
def fallbackImprovement : String := "Unable to assess - LLM did not return this dimension"

/-- The default `score_details` entry the fallback injects for an omitted
dimension. -/
def fallbackEntry (d : Dim) : EvalScore :=
  { dimension := d, score := 0, evidence := fallbackEvidence,
    improvement := some fallbackImprovement }

/-- One iteration of the fallback loop (`for dim in required_dimensions`):
default a missing score to 0, and add the default `score_details` entry
unless one was already built for that dimension. -/
def fallbackStep (st : ParseSt) (d : Dim) : ParseSt :=
  if dictHas st.scores d then st
  else
    { st with
      scores := dictSet st.scores d 0,
      details :=
        if st.details.any (fun sd => sd.dimension = d) then st.details
        else st.details ++ [fallbackEntry d] }

/-- The post-loop fallback: every required dimension missing from `scores`
is defaulted to 0, and gets a default `score_details` entry unless one was
already built. -/
def applyFallback (st : ParseSt) : ParseSt :=
  requiredDimensions.foldl fallbackStep st

/-- The parser state after markdown stripping and the line loop, before the
dimension fallback: a dimension is "absent from the LLM output" exactly
when it is missing from this state's `scores`. -/
def parseLoopSt (raw : String) : ParseSt :=
  let cleaned := pyReplace (pyReplace raw "**" "") "*" ""
  let lines := pySplitOn (pyStrip cleaned) "\n"
  lines.foldl parseLineStep initParseSt

/-- `_parse_technical_evaluation` up to (but not including) pydantic
validation: markdown stripping, the line loop, the dimension fallback, the
weighted overall score, and the feedback defaults. -/
def parseTechCore (raw : String) (question_id : ℤ) : ParsedEval :=
  let st := applyFallback (parseLoopSt raw)
  let overall := calculate_weighted_score st.scores
  { question_id := question_id
    round_type := "technical"
    scores := st.scores
    score_details := st.details
    overall_score := overall
    strengths := if st.strengths = [] then ["Provided an answer"] else st.strengths
    weaknesses := if st.weaknesses = [] then ["Could provide more depth"] else st.weaknesses
    red_flags := st.red_flags
    requires_followup := st.requires_followup
    followup_reason := st.followup_reason
    suggested_followup := st.suggested_followup
    difficulty_adjustment := st.difficulty_adjustment }

/-- The pydantic validators of `EvaluationScore` and `AnswerEvaluation`
(`models/evaluation_models.py`): every `score_details` score and every
required dimension score must lie in 0–100, all five dimensions must be
present, `overall_score` must lie in 0–100, and `difficulty_adjustment`
must be one of the three keywords.  In Python an out-of-range
`EvaluationScore` raises during the line loop rather than at the end; the
call's outcome (exception vs. returned value) is the same either way, which
is what we model. -/
def validateEvaluation (p : ParsedEval) : Except String ParsedEval :=
  if ¬ (p.score_details.all fun sd => 0 ≤ sd.score && sd.score ≤ 100) then
    Except.error "EvaluationScore: score must be between 0 and 100"
  else if ¬ (requiredDimensions.all fun d => dictHas p.scores d) then
    Except.error "Missing required dimension"
  else if ¬ (requiredDimensions.all fun d =>
      0 ≤ dictGet p.scores d 0 && dictGet p.scores d 0 ≤ 100) then
    Except.error "Score must be between 0-100"
  else if ¬ (0 ≤ p.overall_score && p.overall_score ≤ 100) then
    Except.error "overall_score out of range"
  else if ¬ (p.difficulty_adjustment = "decrease" ∨
      p.difficulty_adjustment = "maintain" ∨
      p.difficulty_adjustment = "increase") then
    Except.error "invalid difficulty_adjustment"
  else
    Except.ok p

/-- `_parse_technical_evaluation` as observed by its caller: the parsed,
defaulted evaluation, or the pydantic validation error it raises. -/
def parseTechnicalEvaluation (raw : String) (question_id : ℤ) :
    Except String ParsedEval :=
  validateEvaluation (parseTechCore raw question_id)

/-! ## Interview phases and the shipped demo preset -/

/-- `InterviewPhase` of `models/state_models.py`. -/
inductive Phase where
  | not_started
  | resume_deep_dive
  | core_skill_assessment
  | scenario_solving
  | stress_testing
  | claim_verification
  | wrap_up
  | completed
deriving DecidableEq, Repr

/-- `phase_order` of `SessionState.get_next_phase`. -/
def phaseOrder : List Phase :=
  [Phase.resume_deep_dive, Phase.core_skill_assessment, Phase.scenario_solving,
   Phase.stress_testing, Phase.claim_verification, Phase.wrap_up, Phase.completed]

/-- One entry of `PHASE_TRANSITION_RULES`
(`config/evaluation_config.py`). -/
structure PhaseCfg where
  min_questions : ℕ
  max_questions : ℕ
  transition_score : ℕ
  force_transition_after : ℕ
  skip_if_no_claims : Bool
deriving DecidableEq, Repr

/-- The ACTIVE `PHASE_TRANSITION_RULES` dict — the shipped "demo" preset of
`config/evaluation_config.py` (the production preset is commented out
there). -/
def demoPhaseRules : List (Phase × PhaseCfg) :=
  [(Phase.resume_deep_dive,
    { min_questions := 2, max_questions := 2, transition_score := 0,
      force_transition_after := 2, skip_if_no_claims := false }),
   (Phase.core_skill_assessment,
    { min_questions := 3, max_questions := 3, transition_score := 0,
      force_transition_after := 3, skip_if_no_claims := false }),
   (Phase.scenario_solving,
    { min_questions := 0, max_questions := 0, transition_score := 0,
      force_transition_after := 0, skip_if_no_claims := false }),
   (Phase.stress_testing,
    { min_questions := 0, max_questions := 0, transition_score := 0,
      force_transition_after := 0, skip_if_no_claims := false }),
   (Phase.claim_verification,
    { min_questions := 0, max_questions := 0, transition_score := 0,
      force_transition_after := 0, skip_if_no_claims := true }),
   (Phase.wrap_up,
    { min_questions := 0, max_questions := 0, transition_score := 0,
      force_transition_after := 0, skip_if_no_claims := false })]

/-- `PHASE_TRANSITION_RULES.get(phase, {})`. -/
def phaseRule (p : Phase) : Option PhaseCfg :=
  (demoPhaseRules.find? (fun e => e.1 = p)).map (fun e => e.2)

/-- `phase_config.get('force_transition_after', 999)`
(`process_answer` step 7). -/
def phaseForce (p : Phase) : ℕ :=
  match phaseRule p with
  | some cfg => cfg.force_transition_after
  | none => 999

/-- `self.max_total_questions = sum(config['max_questions'] for config in
PHASE_TRANSITION_RULES.values())` (`interview_orchestrator.__init__`):
`2 + 3 + 0 + 0 + 0 + 0 = 5` in the demo preset. -/
def maxTotalQuestions : ℕ :=
  (demoPhaseRules.map (fun e => e.2.max_questions)).sum

/-- The spec's phase-transition predicate, following its words:
"(a) `questions_in_current_phase ≥ force_after`; OR (b)
`questions_in_current_phase ≥ min_q` and phase-average overall score ≥
transition_score (and transition_score > 0); OR (c) transition_score == 0
and `min_q` met."  (`avg` is the phase-average overall score.) -/
def specTransitionPredicate (cfg : PhaseCfg) (q : ℕ) (avg : ℚ) : Prop :=
  q ≥ cfg.force_transition_after ∨
  (q ≥ cfg.min_questions ∧ avg ≥ (cfg.transition_score : ℚ) ∧
    cfg.transition_score > 0) ∨
  (cfg.transition_score = 0 ∧ q ≥ cfg.min_questions)

/-! ## The orchestrator state machine

`interview_orchestrator.InterviewOrchestrator` under the demo preset.  LLM
calls (question text generation) do not influence the state machine except
for the generated follow-up text, which enters as an environment input. -/

/-- One Q/A record of `SessionState.conversation_history`, restricted to
the fields the orchestrator logic reads back. -/
structure QARec where
  overall : ℤ
  phase : Phase
  is_followup_answer : Bool
  triggered_followup : Bool
deriving DecidableEq, Repr

/-- The orchestrator-relevant part of a `SessionState` plus the
`config['actual_question_number']` / `config['followup_count']` counters. -/
structure OrchState where
  current_phase : Phase
  questions_in_current_phase : ℕ
  difficulty_level : ℤ
  conversation_history : List QARec
  actual_question_number : ℕ
  followup_count : ℕ
  unverified_claims : List String
  phases_completed : List Phase
deriving DecidableEq, Repr

/-- The session state `start_interview` leaves behind: phase
`resume_deep_dive`, counters zeroed, difficulty 5, and
`actual_question_number = 1` once the first question is generated. -/
def startState : OrchState :=
  { current_phase := Phase.resume_deep_dive
    questions_in_current_phase := 0
    difficulty_level := 5
    conversation_history := []
    actual_question_number := 1
    followup_count := 0
    unverified_claims := []
    phases_completed := [] }

/-- Python truthiness of an `Optional[str]`. -/
def pyTruthyOpt (o : Option String) : Bool :=
  match o with
  | none => false
  | some s => s ≠ ""

/-- The critical-weakness lexicon of `_should_ask_followup`. -/
def criticalWeaknesses : List String :=
  ["vague", "no specific", "missing details", "unclear", "contradictory",
   "no metrics"]

/-- `InterviewOrchestrator._should_ask_followup`, with its checks in source
order.  `current_question_num` is the `actual_question_number` passed in by
`process_answer`. -/
def shouldAskFollowup (ev : ParsedEval) (answer_text : String)
    (st : OrchState) (is_followup_answer : Bool)
    (current_question_num : ℕ) : Bool :=
  if current_question_num ≥ maxTotalQuestions - 1 then false
  else if is_followup_answer then false
  else if (match st.conversation_history.getLast? with
           | some last_qa => last_qa.triggered_followup
           | none => false) then false
  else if st.followup_count ≥ 2 then false
  else if ev.requires_followup then true
  else if ev.overall_score < 55 then true
  else if (pyWords answer_text).length < 30 then true
  else if ev.red_flags.length > 0 then true
  else if ev.weaknesses.any (fun w =>
      criticalWeaknesses.any (fun cw => strContains (pyLower w) cw)) then true
  else false

/-- Strip one leading prefix (then re-strip), as the follow-up/question
cleaners do. -/
def dropLeading (q p : String) : String :=
  if pyStartsWith q p then pyStrip (pyDrop q (pyLen p)) else q

/-- The cleaning `_generate_followup_question` applies to the LLM text. -/
def cleanFollowupText (r : String) : String :=
  let q := pyReplace (pyReplace (pyStrip r) "**" "") "*" ""
  let q := dropLeading q "Question:"
  let q := dropLeading q "Q:"
  let q := dropLeading q "Follow-up:"
  if pyStartsWith q "\"" && pyEndsWith q "\"" then String.mk (q.data.drop 1).dropLast else q

/-- `InterviewOrchestrator._generate_followup_question`: the evaluator's
`suggested_followup` if truthy, else the cleaned LLM response, else the
fixed fallback sentence when the LLM call raises (`llm = none`). -/
def generateFollowupQuestion (ev : ParsedEval) (llm : Option String) : String :=
  if pyTruthyOpt ev.suggested_followup then ev.suggested_followup.getD ""
  else
    match llm with
    | some r => cleanFollowupText r
    | none => "Can you elaborate on that with more specific details?"

/-- `InterviewOrchestrator._adjust_difficulty`. -/
def adjustDifficulty (current_level : ℤ) (adjustment : String) : ℤ :=
  if adjustment = "increase" then min 10 (current_level + 1)
  else if adjustment = "decrease" then max 1 (current_level - 1)
  else current_level

/-- `SessionState.get_next_phase`: step along `phase_order`, skipping
`claim_verification` when there are no unverified claims; index errors
yield `completed`. -/
def getNextPhase (st : OrchState) : Phase :=
  match phaseOrder.findIdx? (fun p => p = st.current_phase) with
  | none => Phase.completed
  | some i =>
    match phaseOrder.get? (i + 1) with
    | none => Phase.completed
    | some nxt =>
      if nxt = Phase.claim_verification ∧ st.unverified_claims = [] then
        (phaseOrder.get? (i + 2)).getD Phase.completed
      else nxt

/-- `state.conversation_history[-1]['triggered_followup'] = True`. -/
def setLastTriggered : List QARec → List QARec
  | [] => []
  | [r] => [{ r with triggered_followup := true }]
  | r :: rs => r :: setLastTriggered rs

/-- The inputs of one `process_answer` call that the state machine depends
on: the evaluation the answer analyzer returned, the answer text, the
caller's `is_followup_answer` flag, and the LLM's follow-up text (`none`
models the LLM call raising). -/
structure ProcessInput where
  evaluation : ParsedEval
  answer_text : String
  is_followup_answer : Bool
  followupLLM : Option String
deriving Repr

/-- The observable outcome of `process_answer`. -/
inductive PAResult where
  | completed (reason : String)
  | requiresFollowup (question : String) (reason : String)
  | nextQuestion (question_number : ℕ) (phase : Phase) (difficulty : ℤ)
deriving DecidableEq, Repr

/-- Steps 8–9 of `process_answer`: bump `actual_question_number` and return
the next question (its phase/difficulty read from the state after any
transition). -/
def continueNextQuestion (st : OrchState) (actual_q_num : ℕ) :
    OrchState × PAResult :=
  let n := actual_q_num + 1
  ({ st with actual_question_number := n },
   PAResult.nextQuestion n st.current_phase st.difficulty_level)

/-- Steps 2–3 of `process_answer`: increment the phase counter for a
non-follow-up answer, then append the Q/A record with
`triggered_followup` reset to `False` and `is_followup_answer` as the
caller passed it. -/
def appendRecord (st : OrchState) (inp : ProcessInput) : OrchState :=
  let st := if ¬ inp.is_followup_answer then
      { st with questions_in_current_phase := st.questions_in_current_phase + 1 }
    else st
  let newRec : QARec :=
    { overall := inp.evaluation.overall_score
      phase := st.current_phase
      is_followup_answer := inp.is_followup_answer
      triggered_followup := false }
  { st with conversation_history := st.conversation_history ++ [newRec] }

/-- The state mutation of the follow-up branch: mark the parent record and
increment `config['followup_count']`. -/
def followupBranchState (st : OrchState) : OrchState :=
  { st with
    conversation_history := setLastTriggered st.conversation_history
    followup_count := st.followup_count + 1 }

/-- Step 6 of `process_answer`: apply the evaluator's difficulty hint. -/
def difficultyAdjusted (st : OrchState) (ev : ParsedEval) : OrchState :=
  { st with
    difficulty_level := adjustDifficulty st.difficulty_level ev.difficulty_adjustment }

/-- Step 7's mutation: record the finished phase, move to the next one and
zero the phase counter. -/
def transitionedState (st : OrchState) : OrchState :=
  { st with
    phases_completed := st.phases_completed ++ [st.current_phase]
    current_phase := getNextPhase st
    questions_in_current_phase := 0 }

/-- The `followup_reason` field of the follow-up response:
`evaluation.followup_reason or "Answer needs clarification"`. -/
def followupReasonOut (ev : ParsedEval) : String :=
  if pyTruthyOpt ev.followup_reason then ev.followup_reason.getD ""
  else "Answer needs clarification"

/-- `InterviewOrchestrator.process_answer`, in source order: increment the
phase counter for non-follow-up answers, append the Q/A record
(`appendRecord`), hard-stop at `max_total_questions`, follow-up decision,
difficulty adjustment, forced phase transition, then the next question. -/
def processAnswer (s : OrchState) (inp : ProcessInput) :
    OrchState × PAResult :=
  let actual_q_num := s.actual_question_number
  let st := appendRecord s inp
  if actual_q_num ≥ maxTotalQuestions then
    (st, PAResult.completed "Completed all questions")
  else if shouldAskFollowup inp.evaluation inp.answer_text st
      inp.is_followup_answer actual_q_num ∧
      generateFollowupQuestion inp.evaluation inp.followupLLM ≠ "" then
    (followupBranchState st,
     PAResult.requiresFollowup
       (generateFollowupQuestion inp.evaluation inp.followupLLM)
       (followupReasonOut inp.evaluation))
  else
    let st := difficultyAdjusted st inp.evaluation
    if st.questions_in_current_phase ≥ phaseForce st.current_phase then
      let st := transitionedState st
      if st.current_phase = Phase.completed then
        (st, PAResult.completed "Completed all phases")
      else
        continueNextQuestion st actual_q_num
    else
      continueNextQuestion st actual_q_num

/-- Session states reachable through `start_interview` followed by any
sequence of `process_answer` calls (with arbitrary evaluations, answers and
caller flags). -/
inductive ReachAny : OrchState → Prop where
  | start : ReachAny startState
  | step (s : OrchState) (inp : ProcessInput) :
      ReachAny s → ReachAny (processAnswer s inp).1

/-- Did this `process_answer` call request a follow-up? -/
def isFollowupResult : PAResult → Bool
  | PAResult.requiresFollowup _ _ => true
  | _ => false

/-- Session states reachable when the frontend drives the orchestrator
honestly: an answer carries `is_followup_answer = true` exactly when the
previous `process_answer` result requested a follow-up.  The `Bool`
tracks whether a follow-up is currently outstanding. -/
inductive ReachDriver : OrchState → Bool → Prop where
  | start : ReachDriver startState false
  | step (s : OrchState) (out : Bool) (inp : ProcessInput) :
      ReachDriver s out → inp.is_followup_answer = out →
      ReachDriver (processAnswer s inp).1
        (isFollowupResult (processAnswer s inp).2)

/-- Number of Q/A records flagged `is_followup_answer=true`. -/
def flaggedCount (h : List QARec) : ℕ :=
  (h.filter (fun r => r.is_followup_answer)).length

/-! ## The interruption analyzer's decision logic

`interruption_analyzer.EnhancedInterruptionAnalyzer`: the four detection
layers produce a list of triggers; the decision logic (lines 165–214)
selects the highest-weight one, advances that reason's per-session counter,
and compares it with the reason's threshold.  Triggers enter the model as
inputs; the decision logic and the counters are modelled exactly. -/

/-- One detection trigger (reason, table weight, evidence). -/
structure Trig where
  reason : String
  weight : ℤ
  evidence : String
deriving DecidableEq, Repr

/-- `INTERRUPTION_SEVERITY` (weight, consecutive-occurrence threshold). -/
def interruptionSeverity : List (String × (ℤ × ℕ)) :=
  [("FALSE_CLAIM", (100, 1)),
   ("CONTRADICTION", (95, 1)),
   ("COMPLETELY_OFF_TOPIC", (90, 1)),
   ("DODGING_QUESTION", (85, 2)),
   ("EXCESSIVE_RAMBLING", (80, 2)),
   ("EXCESSIVE_PAUSING", (75, 2)),
   ("VAGUE_ANSWER", (70, 3)),
   ("LACK_OF_SPECIFICS", (65, 3)),
   ("HIGH_UNCERTAINTY", (60, 3)),
   ("MINOR_RAMBLING", (30, 999)),
   ("SPEAKING_TOO_LONG", (25, 999)),
   ("INCONSISTENT_DELIVERY", (20, 999))]

/-- `INTERRUPTION_SEVERITY.get(reason, {"weight": 50, "threshold": 2})`. -/
def severityOf (reason : String) : ℤ × ℕ :=
  dictGet interruptionSeverity reason (50, 2)

/-- `self.session_warnings`: session id → (reason → occurrence count). -/
abbrev Warnings : Type := List (String × List (String × ℕ))

/-- The decision `analyze_for_interruption` returns (when triggers fired). -/
structure IntrDecision where
  action : String
  reason : String
  weight : ℤ
  occurrence_count : ℕ
  threshold : ℕ
deriving DecidableEq, Repr

/-- The descending-weight comparison of
`all_triggers.sort(key=lambda x: x.get('weight', 0), reverse=True)`. -/
def trigGe (a b : Trig) : Bool := b.weight ≤ a.weight

/-- Insert a trigger into a weight-descending list, after all triggers of
strictly greater weight and before equal-weight ones — the placement
Python's stable descending sort gives an earlier element relative to the
later ones. -/
def insertSorted (a : Trig) : List Trig → List Trig
  | [] => [a]
  | b :: rest =>
    if a.weight < b.weight then b :: insertSorted a rest else a :: b :: rest

/-- Python's `list.sort(key=weight, reverse=True)`: the stable
weight-descending ordering of the list (insertion formulation). -/
def sortTrigs (l : List Trig) : List Trig :=
  l.foldr insertSorted []

/-- The decision logic of `analyze_for_interruption` (lines 165–214):
stable-sort the triggers by weight descending, keep the top one, advance
the per-session counter of its reason only, and interrupt iff that counter
reached the reason's threshold. -/
def analyzeDecision (w : Warnings) (session_id : String)
    (all_triggers : List Trig) : Option IntrDecision × Warnings :=
  match sortTrigs all_triggers with
  | [] => (none, w)
  | top :: _ =>
    let sw := dictGet w session_id []
    let occurrence_count := dictGet sw top.reason 0 + 1
    let w2 := dictSet w session_id (dictSet sw top.reason occurrence_count)
    let thr := (severityOf top.reason).2
    (some
      { action := if occurrence_count ≥ thr then "interrupt" else "warn"
        reason := top.reason
        weight := top.weight
        occurrence_count := occurrence_count
        threshold := thr }, w2)

/-- `EnhancedInterruptionAnalyzer.clear_session`: delete the session's
counters (and analysis history), leaving every other session untouched. -/
def clearSession (w : Warnings) (session_id : String) : Warnings :=
  List.filter (fun p => p.1 ≠ session_id) w

/-! ## The interruption cap of `main.py`

`main.check_interruption` guards every interruption behind the session's
`interruption_count` / `max_interruptions` counters; `main.start_interview`
initializes them to `0` and `2`. -/

/-- `config.ENABLE_INTERRUPTIONS` (`config.py`). -/
def ENABLE_INTERRUPTIONS : Bool := true

/-- `config.MAX_INTERRUPTIONS_PER_SESSION` (`config.py` line 59,
"Realistic: 0-2 interruptions max"). -/
def MAX_INTERRUPTIONS_PER_SESSION : ℕ := 2

/-- The default of the `SessionState.max_interruptions` pydantic field
(`models/state_models.py` line 252) — not consulted by
`main.check_interruption`. -/
def sessionStateMaxInterruptionsDefault : ℕ := 5

/-- The interruption bookkeeping of a `main.py` session dict. -/
structure MainSession where
  interruption_count : ℕ
  max_interruptions : ℕ
deriving DecidableEq, Repr

/-- The session dict `main.start_interview` creates:
`"interruption_count": 0, "max_interruptions": 2`. -/
def mainInitSession : MainSession :=
  { interruption_count := 0, max_interruptions := 2 }

/-- Outcome of `main.check_interruption`. -/
inductive CheckOutcome where
  | noInterrupt
  | maxReached
  | interrupted
deriving DecidableEq, Repr

/-- `main.check_interruption`, with the trigger decision
(`check_interruption_trigger`) abstracted into the Boolean input
`trigger_fires`: pressure gate, cap gate, then interrupt-and-count. -/
def mainCheckInterruption (s : MainSession) (trigger_fires : Bool) :
    MainSession × CheckOutcome :=
  if ¬ ENABLE_INTERRUPTIONS then (s, CheckOutcome.noInterrupt)
  else if s.interruption_count ≥ s.max_interruptions then
    (s, CheckOutcome.maxReached)
  else if trigger_fires then
    ({ s with interruption_count := s.interruption_count + 1 },
     CheckOutcome.interrupted)
  else (s, CheckOutcome.noInterrupt)

/-- `main.py` session states reachable from `start_interview` by any
sequence of `check_interruption` calls. -/
inductive ReachMain : MainSession → Prop where
  | start : ReachMain mainInitSession
  | step (s : MainSession) (fires : Bool) :
      ReachMain s → ReachMain (mainCheckInterruption s fires).1

/-! ## Claim-based evaluation adjustment

`answer_analyzer.OptimizedAnswerAnalyzer._enhance_with_claims`, which
adjusts an evaluation from extracted claims and recomputes
`overall_score`.  `evaluate_answer` calls it only when claims were
extracted (`if claims:`). -/

/-- The claim fields `_enhance_with_claims` reads. -/
structure ClaimIn where
  claim_text : String
  verifiability : String
  requires_verification : Bool
deriving DecidableEq, Repr

/-- Append `flag` unless it is already present (`if flag not in ...`). -/
def appendIfAbsent (l : List String) (flag : String) : List String :=
  if flag ∈ l then l else l ++ [flag]

/-- `_enhance_with_claims` for a nonempty claim list: add contradiction and
suspicion red flags, reduce `concept_accuracy` for ≥ 2 vague claims and
`confidence_consistency` for contradictions, recompute `overall_score`,
and note many unverified claims as a weakness. -/
def enhanceWithClaims (ev : ParsedEval) (claims : List ClaimIn) : ParsedEval :=
  if claims = [] then ev
  else
    let vague_claims := claims.filter (fun c => c.verifiability = "vague")
    let suspicious_claims := claims.filter (fun c => c.verifiability = "suspicious")
    let contradictory_claims := claims.filter (fun c => c.verifiability = "contradictory")
    let red_flags := contradictory_claims.foldl
      (fun acc c => appendIfAbsent acc ("Contradiction detected: " ++ String.mk (c.claim_text.data.take 60) ++ "..."))
      ev.red_flags
    let red_flags := suspicious_claims.foldl
      (fun acc c => appendIfAbsent acc ("Suspicious claim: " ++ String.mk (c.claim_text.data.take 60) ++ "..."))
      red_flags
    let scores :=
      if vague_claims ≠ [] ∧ vague_claims.length ≥ 2 then
        let penalty : ℤ := min 15 (vague_claims.length * 5)
        dictSet ev.scores Dim.concept_accuracy
          (max 0 (dictGet ev.scores Dim.concept_accuracy 0 - penalty))
      else ev.scores
    let scores :=
      if contradictory_claims ≠ [] then
        let penalty : ℤ := min 20 (contradictory_claims.length * 10)
        dictSet scores Dim.confidence_consistency
          (max 0 (dictGet scores Dim.confidence_consistency 0 - penalty))
      else scores
    let overall := calculate_weighted_score scores
    let unverified := claims.filter (fun c => c.requires_verification)
    let weaknesses :=
      if unverified.length ≥ 3 then
        appendIfAbsent ev.weaknesses
          ("Made " ++ toString unverified.length ++ " claims that need verification")
      else ev.weaknesses
    { ev with
      red_flags := red_flags
      scores := scores
      overall_score := overall
      weaknesses := weaknesses }

/-! ## Concrete fixtures

Concrete evaluations, inputs and states used by the witness and
counterexample theorems below. -/

/-- A 40-word answer (no follow-up trigger from word count). -/
def goodAnswer : String := String.mk (intercalateCh [' '] (List.replicate 40 ['w', 'o', 'r', 'd']))

/-- A solid evaluation that triggers none of the follow-up conditions. -/
def goodEval : ParsedEval :=
  { question_id := 1, round_type := "technical",
    scores := [(Dim.technical_depth, 70), (Dim.concept_accuracy, 70),
      (Dim.structured_thinking, 70), (Dim.communication_clarity, 70),
      (Dim.confidence_consistency, 70)],
    score_details := [], overall_score := 70,
    strengths := ["ok"], weaknesses := ["minor gaps"], red_flags := [],
    requires_followup := false, followup_reason := none,
    suggested_followup := none, difficulty_adjustment := "maintain" }

/-- A non-follow-up `process_answer` input built on `goodEval`. -/
def goodInput : ProcessInput :=
  { evaluation := goodEval, answer_text := goodAnswer,
    is_followup_answer := false, followupLLM := none }

/-- `goodEval` with a failing overall score (triggers the `< 55` rule). -/
def lowEval : ParsedEval := { goodEval with overall_score := 40 }

/-- A non-follow-up `process_answer` input built on `lowEval`. -/
def lowInput : ProcessInput :=
  { evaluation := lowEval, answer_text := goodAnswer,
    is_followup_answer := false, followupLLM := none }

/-- A session state about to process its second question, whose previous
Q/A record carries `triggered_followup = true` — per the specification, a
follow-up must be suppressed for the answer now being processed. -/
def prevTriggeredState : OrchState :=
  { current_phase := Phase.resume_deep_dive
    questions_in_current_phase := 1
    difficulty_level := 5
    conversation_history :=
      [{ overall := 40, phase := Phase.resume_deep_dive,
         is_followup_answer := false, triggered_followup := true }]
    actual_question_number := 2
    followup_count := 1
    unverified_claims := []
    phases_completed := [] }

/-- A short (3-word) answer with an otherwise clean evaluation: of the
follow-up trigger conditions only the `< 30` word count fires. -/
def shortAnswerInput : ProcessInput :=
  { evaluation := goodEval, answer_text := "too short answer",
    is_followup_answer := false, followupLLM := none }

/-- A state with `actual_question_number` already at the maximum. -/
def atMaxState : OrchState :=
  { startState with actual_question_number := maxTotalQuestions }

/-- A low-weight lexical trigger (`MINOR_RAMBLING`, weight 30). -/
def minorRamblingTrig : Trig :=
  { reason := "MINOR_RAMBLING", weight := 30, evidence := "filler ratio 0.09" }

/-- A `CONTRADICTION` trigger (weight 95, threshold 1). -/
def contradictionTrig : Trig :=
  { reason := "CONTRADICTION", weight := 95, evidence := "contradicts previous answer" }

/-- The `main.py` session after two interruptions were granted. -/
def mainSessionAfterTwo : MainSession :=
  (mainCheckInterruption (mainCheckInterruption mainInitSession true).1 true).1

/-- The LLM output of end-to-end scenario 6 of the spec (malformed:
only one dimension and one strengths line). -/
def scenario6Raw : String := "TECHNICAL_DEPTH: 80\nSTRENGTHS: good job"

/-- An LLM output whose two dimension scores expose the float rounding of
`calculate_weighted_score`: the exact weighted sum is `2` but the float
computation truncates to `1`. -/
def floatEdgeRaw : String := "TECHNICAL_DEPTH: 6\nSTRUCTURED_THINKING: 1"

/-- An LLM output with an out-of-range score, on which the pydantic
validators raise. -/
def outOfRangeRaw : String := "TECHNICAL_DEPTH: 150"

/-- The error payload of an `Except`, if any (used to state raised
exceptions decidably). -/
def errorOf {ε α : Type} (e : Except ε α) : Option ε :=
  match e with
  | Except.error s => some s
  | Except.ok _ => none

/-- The session state after the first (good) answer of a demo session:
phase `resume_deep_dive`, one question answered in the phase, about to
process question 2. -/
def q2State : OrchState := (processAnswer startState goodInput).1

/-- A contradictory claim, as `_enhance_with_claims` consumes it. -/
def contradictoryClaim : ClaimIn :=
  { claim_text := "I led the team alone", verifiability := "contradictory",
    requires_verification := true }

/-- The demo preset's `resume_deep_dive` phase entry, spelled out. -/
def rddCfg : PhaseCfg :=
  { min_questions := 2, max_questions := 2, transition_score := 0,
    force_transition_after := 2, skip_if_no_claims := false }

end InternAI


namespace InternAI

/-! ## Helper lemmas -/

theorem dictGet_dictSet_self {α β : Type} [DecidableEq α]
    (m : List (α × β)) (k : α) (v d : β) :
    dictGet (dictSet m k v) k d = v := by
  induction m with
  | nil => simp [dictSet, dictGet]
  | cons p rest ih =>
    by_cases h : p.1 = k <;> simp [dictSet, dictGet, h, ih]

theorem dictGet_dictSet_ne {α β : Type} [DecidableEq α]
    (m : List (α × β)) (k k2 : α) (v : β) (d : β) (h : k2 ≠ k) :
    dictGet (dictSet m k v) k2 d = dictGet m k2 d := by
  induction m with
  | nil =>
    simp only [dictSet, dictGet]
    rw [if_neg (fun he : k = k2 => h he.symm)]
  | cons p rest ih =>
    simp only [dictSet]
    by_cases hp : p.1 = k
    · rw [if_pos hp]
      simp only [dictGet]
      rw [if_neg (fun he : k = k2 => h he.symm),
        if_neg (fun he : p.1 = k2 => h (by rw [← he, hp]))]
    · rw [if_neg hp]
      simp only [dictGet]
      by_cases hp2 : p.1 = k2
      · rw [if_pos hp2, if_pos hp2]
      · rw [if_neg hp2, if_neg hp2, ih]

theorem dictHas_dictSet {α β : Type} [DecidableEq α]
    (m : List (α × β)) (k k2 : α) (v : β) :
    dictHas (dictSet m k v) k2 = (decide (k2 = k) || dictHas m k2) := by
  induction m with
  | nil =>
    simp only [dictSet, dictHas]
    by_cases h2 : k2 = k
    · subst h2; simp
    · simp [h2, Ne.symm h2]
  | cons p rest ih =>
    simp only [dictSet]
    by_cases hp : p.1 = k
    · rw [if_pos hp]
      simp only [dictHas]
      by_cases h2 : k2 = k
      · subst h2; simp
      · subst hp; simp [h2, Ne.symm h2]
    · rw [if_neg hp]
      simp only [dictHas, ih]
      by_cases hp2 : p.1 = k2 <;> simp [hp2]

theorem fallbackStep_has_self (st : ParseSt) (d : Dim) :
    dictHas (fallbackStep st d).scores d = true := by
  unfold fallbackStep
  by_cases h : dictHas st.scores d = true
  · simp [h]
  · simp only [Bool.not_eq_true] at h
    simp [h, dictHas_dictSet]

theorem fallbackStep_has_mono (st : ParseSt) (d d2 : Dim)
    (h : dictHas st.scores d2 = true) :
    dictHas (fallbackStep st d).scores d2 = true := by
  unfold fallbackStep
  split
  · exact h
  · simp [dictHas_dictSet, h]

theorem foldl_fallback_has_mono (L : List Dim) (st : ParseSt) (d : Dim)
    (h : dictHas st.scores d = true) :
    dictHas ((L.foldl fallbackStep st)).scores d = true := by
  induction L generalizing st with
  | nil => exact h
  | cons a L ih => exact ih _ (fallbackStep_has_mono st a d h)

theorem foldl_fallback_has (L : List Dim) (st : ParseSt) (d : Dim)
    (h : d ∈ L) :
    dictHas ((L.foldl fallbackStep st)).scores d = true := by
  induction L generalizing st with
  | nil => cases h
  | cons a L ih =>
    rcases List.mem_cons.mp h with rfl | hmem
    · exact foldl_fallback_has_mono L _ d (fallbackStep_has_self st d)
    · exact ih _ hmem

theorem fallbackStep_get_of_has (st : ParseSt) (d d2 : Dim) (x : ℤ)
    (h : dictHas st.scores d2 = true) :
    dictGet (fallbackStep st d).scores d2 x = dictGet st.scores d2 x := by
  unfold fallbackStep
  split
  · rfl
  · rename_i hmiss
    have hne : d2 ≠ d := by
      intro he; subst he; exact hmiss h
    simp [dictGet_dictSet_ne _ _ _ _ _ hne]

theorem foldl_fallback_get_of_has (L : List Dim) (st : ParseSt) (d : Dim)
    (x : ℤ) (h : dictHas st.scores d = true) :
    dictGet ((L.foldl fallbackStep st)).scores d x = dictGet st.scores d x := by
  induction L generalizing st with
  | nil => rfl
  | cons a L ih =>
    rw [List.foldl_cons, ih _ (fallbackStep_has_mono st a d h),
      fallbackStep_get_of_has st a d x h]

theorem fallbackStep_get_self_of_missing (st : ParseSt) (d : Dim) (x : ℤ)
    (h : dictHas st.scores d = false) :
    dictGet (fallbackStep st d).scores d x = 0 := by
  unfold fallbackStep
  rw [if_neg (by simp [h])]
  simp [dictGet_dictSet_self]

theorem fallbackStep_has_ne_false (st : ParseSt) (d d2 : Dim)
    (hne : d2 ≠ d) (h : dictHas st.scores d2 = false) :
    dictHas (fallbackStep st d).scores d2 = false := by
  unfold fallbackStep
  split
  · exact h
  · simp [dictHas_dictSet, h, hne]

theorem foldl_fallback_get_zero (L : List Dim) (st : ParseSt) (d : Dim)
    (x : ℤ) (hmem : d ∈ L) (h : dictHas st.scores d = false) :
    dictGet ((L.foldl fallbackStep st)).scores d x = 0 := by
  induction L generalizing st with
  | nil => cases hmem
  | cons a L ih =>
    by_cases he : d = a
    · subst he
      rw [List.foldl_cons,
        foldl_fallback_get_of_has L _ d x (fallbackStep_has_self st d),
        fallbackStep_get_self_of_missing st d x h]
    · rcases List.mem_cons.mp hmem with h1 | hmem2
      · exact absurd h1 he
      · exact ih _ hmem2 (fallbackStep_has_ne_false st a d he h)

theorem fallbackStep_details_mono (st : ParseSt) (d : Dim) (sd : EvalScore)
    (h : sd ∈ st.details) : sd ∈ (fallbackStep st d).details := by
  unfold fallbackStep
  split
  · exact h
  · simp only
    split
    · exact h
    · exact List.mem_append_left _ h

theorem foldl_fallback_details_mono (L : List Dim) (st : ParseSt)
    (sd : EvalScore) (h : sd ∈ st.details) :
    sd ∈ ((L.foldl fallbackStep st)).details := by
  induction L generalizing st with
  | nil => exact h
  | cons a L ih => exact ih _ (fallbackStep_details_mono st a sd h)

theorem fallbackStep_details_self (st : ParseSt) (d : Dim)
    (hmiss : dictHas st.scores d = false)
    (hno : st.details.any (fun sd => sd.dimension = d) = false) :
    fallbackEntry d ∈ (fallbackStep st d).details := by
  unfold fallbackStep
  rw [if_neg (by simp [hmiss])]
  simp only
  rw [if_neg (by simp [hno])]
  exact List.mem_append_right _ (List.mem_singleton.mpr rfl)

theorem fallbackStep_noDetail_ne (st : ParseSt) (d d2 : Dim)
    (hne : d2 ≠ d)
    (hno : st.details.any (fun sd => sd.dimension = d2) = false) :
    (fallbackStep st d).details.any (fun sd => sd.dimension = d2) = false := by
  unfold fallbackStep
  split
  · exact hno
  · simp only
    split
    · exact hno
    · simp [List.any_append, hno, fallbackEntry, hne, Ne.symm hne]

theorem foldl_fallback_details (L : List Dim) (st : ParseSt) (d : Dim)
    (hmem : d ∈ L) (hmiss : dictHas st.scores d = false)
    (hno : st.details.any (fun sd => sd.dimension = d) = false) :
    fallbackEntry d ∈ ((L.foldl fallbackStep st)).details := by
  induction L generalizing st with
  | nil => cases hmem
  | cons a L ih =>
    by_cases he : d = a
    · subst he
      exact foldl_fallback_details_mono L _ _
        (fallbackStep_details_self st d hmiss hno)
    · rcases List.mem_cons.mp hmem with h1 | hmem2
      · exact absurd h1 he
      · exact ih _ hmem2 (fallbackStep_has_ne_false st a d he hmiss)
          (fallbackStep_noDetail_ne st a d he hno)

theorem flaggedCount_cons (a : QARec) (l : List QARec) :
    flaggedCount (a :: l) =
      (if a.is_followup_answer then 1 else 0) + flaggedCount l := by
  simp only [flaggedCount, List.filter]
  split <;> rename_i hsp <;> simp_all <;> omega

theorem flaggedCount_append (h : List QARec) (r : QARec) :
    flaggedCount (h ++ [r]) =
      flaggedCount h + (if r.is_followup_answer then 1 else 0) := by
  induction h with
  | nil =>
    rw [List.nil_append, flaggedCount_cons]
    simp [flaggedCount]
  | cons a l ih =>
    rw [List.cons_append, flaggedCount_cons, ih, flaggedCount_cons]
    omega

theorem flaggedCount_setLastTriggered (h : List QARec) :
    flaggedCount (setLastTriggered h) = flaggedCount h := by
  induction h with
  | nil => rfl
  | cons r rs ih =>
    cases rs with
    | nil => simp [setLastTriggered, flaggedCount_cons]
    | cons r2 rs2 =>
      simp only [setLastTriggered, flaggedCount_cons] at *
      omega

theorem shouldAskFollowup_true_elim (ev : ParsedEval) (a : String)
    (st : OrchState) (fu : Bool) (n : ℕ)
    (h : shouldAskFollowup ev a st fu n = true) :
    fu = false ∧ st.followup_count < 2 ∧ n < maxTotalQuestions - 1 := by
  unfold shouldAskFollowup at h
  split_ifs at h <;> simp_all <;> omega

theorem appendRecord_flaggedCount (s : OrchState) (inp : ProcessInput) :
    flaggedCount (appendRecord s inp).conversation_history =
      flaggedCount s.conversation_history +
        (if inp.is_followup_answer then 1 else 0) := by
  unfold appendRecord
  by_cases h : inp.is_followup_answer <;> simp [h, flaggedCount_append]

theorem appendRecord_followup_count (s : OrchState) (inp : ProcessInput) :
    (appendRecord s inp).followup_count = s.followup_count := by
  unfold appendRecord
  split <;> rfl

theorem appendRecord_actual (s : OrchState) (inp : ProcessInput) :
    (appendRecord s inp).actual_question_number = s.actual_question_number := by
  unfold appendRecord
  split <;> rfl

theorem appendRecord_phase (s : OrchState) (inp : ProcessInput) :
    (appendRecord s inp).current_phase = s.current_phase := by
  unfold appendRecord
  split <;> rfl

theorem appendRecord_difficulty (s : OrchState) (inp : ProcessInput) :
    (appendRecord s inp).difficulty_level = s.difficulty_level := by
  unfold appendRecord
  split <;> rfl

theorem appendRecord_questions (s : OrchState) (inp : ProcessInput) :
    (appendRecord s inp).questions_in_current_phase =
      (if inp.is_followup_answer then s.questions_in_current_phase
       else s.questions_in_current_phase + 1) := by
  unfold appendRecord
  by_cases h : inp.is_followup_answer <;> simp [h]

/-- How one `process_answer` call moves the follow-up bookkeeping: the new
record carries the caller's flag; `followup_count` grows by one exactly
when the result requests a follow-up; and a follow-up request implies the
processed answer was not itself a follow-up and the budget was not yet
exhausted. -/
theorem processAnswer_followup_anatomy (s : OrchState) (inp : ProcessInput) :
    flaggedCount (processAnswer s inp).1.conversation_history =
      flaggedCount s.conversation_history +
        (if inp.is_followup_answer then 1 else 0) ∧
    (processAnswer s inp).1.followup_count =
      s.followup_count +
        (if isFollowupResult (processAnswer s inp).2 then 1 else 0) ∧
    (isFollowupResult (processAnswer s inp).2 = true →
      inp.is_followup_answer = false ∧ s.followup_count < 2) := by
  unfold processAnswer
  by_cases h1 : s.actual_question_number ≥ maxTotalQuestions
  · rw [if_pos h1]
    simp [isFollowupResult, appendRecord_flaggedCount, appendRecord_followup_count]
  · rw [if_neg h1]
    by_cases h2 : shouldAskFollowup inp.evaluation inp.answer_text
        (appendRecord s inp) inp.is_followup_answer s.actual_question_number ∧
        generateFollowupQuestion inp.evaluation inp.followupLLM ≠ ""
    · rw [if_pos h2]
      have helim := shouldAskFollowup_true_elim _ _ _ _ _ h2.1
      rw [appendRecord_followup_count] at helim
      refine ⟨?_, ?_, ?_⟩
      · simp [followupBranchState, flaggedCount_setLastTriggered,
          appendRecord_flaggedCount, helim.1]
      · simp [isFollowupResult, followupBranchState, appendRecord_followup_count]
      · intro _
        exact ⟨helim.1, helim.2.1⟩
    · rw [if_neg h2]
      by_cases h3 : (difficultyAdjusted (appendRecord s inp) inp.evaluation).questions_in_current_phase ≥
          phaseForce (difficultyAdjusted (appendRecord s inp) inp.evaluation).current_phase
      · rw [if_pos h3]
        by_cases h4 : (transitionedState (difficultyAdjusted (appendRecord s inp) inp.evaluation)).current_phase = Phase.completed
        · rw [if_pos h4]
          simp [isFollowupResult, transitionedState, difficultyAdjusted,
            appendRecord_flaggedCount, appendRecord_followup_count]
        · rw [if_neg h4]
          simp [isFollowupResult, continueNextQuestion, transitionedState,
            difficultyAdjusted, appendRecord_flaggedCount,
            appendRecord_followup_count]
      · rw [if_neg h3]
        simp [isFollowupResult, continueNextQuestion, difficultyAdjusted,
          appendRecord_flaggedCount, appendRecord_followup_count]

theorem followupBranchState_actual (st : OrchState) :
    (followupBranchState st).actual_question_number =
      st.actual_question_number := rfl

theorem followupBranchState_phase (st : OrchState) :
    (followupBranchState st).current_phase = st.current_phase := rfl

theorem getNextPhase_congr (st s : OrchState)
    (h1 : st.current_phase = s.current_phase)
    (h2 : st.unverified_claims = s.unverified_claims) :
    getNextPhase st = getNextPhase s := by
  unfold getNextPhase
  rw [h1, h2]

/-- `actual_question_number` either stays (hard stop, follow-up) or
increments while strictly below the maximum. -/
theorem processAnswer_actual (s : OrchState) (inp : ProcessInput) :
    (processAnswer s inp).1.actual_question_number = s.actual_question_number ∨
    ((processAnswer s inp).1.actual_question_number = s.actual_question_number + 1 ∧
      s.actual_question_number < maxTotalQuestions) := by
  unfold processAnswer
  by_cases h1 : s.actual_question_number ≥ maxTotalQuestions
  · rw [if_pos h1]
    exact Or.inl (appendRecord_actual s inp)
  · rw [if_neg h1]
    by_cases h2 : shouldAskFollowup inp.evaluation inp.answer_text
        (appendRecord s inp) inp.is_followup_answer s.actual_question_number ∧
        generateFollowupQuestion inp.evaluation inp.followupLLM ≠ ""
    · rw [if_pos h2]
      exact Or.inl ((followupBranchState_actual _).trans (appendRecord_actual s inp))
    · rw [if_neg h2]
      by_cases h3 : (difficultyAdjusted (appendRecord s inp) inp.evaluation).questions_in_current_phase ≥
          phaseForce (difficultyAdjusted (appendRecord s inp) inp.evaluation).current_phase
      · rw [if_pos h3]
        by_cases h4 : (transitionedState (difficultyAdjusted (appendRecord s inp) inp.evaluation)).current_phase = Phase.completed
        · rw [if_pos h4]
          exact Or.inl (by simp [transitionedState, difficultyAdjusted,
            appendRecord_actual])
        · rw [if_neg h4]
          exact Or.inr ⟨by simp [continueNextQuestion], by omega⟩
      · rw [if_neg h3]
        exact Or.inr ⟨by simp [continueNextQuestion], by omega⟩

/-- Claim C2: on every reachable session state the question counter never
exceeds the configured maximum (5 in the shipped demo preset), and a
`process_answer` call that starts at or above the maximum completes
immediately: no follow-up, no difficulty change, no phase transition, no
next question. -/
theorem C2_question_cap_and_hard_stop :
    (∀ s, ReachAny s → s.actual_question_number ≤ maxTotalQuestions) ∧
    (∀ s inp, s.actual_question_number ≥ maxTotalQuestions →
      (processAnswer s inp).2 = PAResult.completed "Completed all questions" ∧
      (processAnswer s inp).1.difficulty_level = s.difficulty_level ∧
      (processAnswer s inp).1.current_phase = s.current_phase ∧
      (processAnswer s inp).1.followup_count = s.followup_count ∧
      (processAnswer s inp).1.actual_question_number = s.actual_question_number) := by
  constructor
  · intro s h
    induction h with
    | start => decide
    | step s2 inp _ ih =>
      rcases processAnswer_actual s2 inp with he | ⟨he, hlt⟩
      · omega
      · omega
  · intro s inp h
    unfold processAnswer
    rw [if_pos h]
    exact ⟨rfl, appendRecord_difficulty s inp, appendRecord_phase s inp,
      appendRecord_followup_count s inp, appendRecord_actual s inp⟩

/-- Witness for C2 at concrete inputs: the start state is reachable and
within the cap, and a session already at the cap completes at once. -/
theorem C2_witness :
    startState.actual_question_number ≤ maxTotalQuestions ∧
    atMaxState.actual_question_number ≥ maxTotalQuestions ∧
    (processAnswer atMaxState goodInput).2 =
      PAResult.completed "Completed all questions" :=
  ⟨C2_question_cap_and_hard_stop.1 startState ReachAny.start,
   by decide,
   (C2_question_cap_and_hard_stop.2 atMaxState goodInput (by decide)).1⟩

/-! ## Claim C7 — interruption cap (corrected) -/

/-- Counterexample to claim C7's "the default value of that cap is 5": the
`main.py` session reached after two granted interruptions (reachable from
`start_interview`) has `interruption_count = 2`, strictly below 5, yet a
third check whose trigger fires is refused with `max_reached` and the
count stays at 2 — because the cap `main.py` initializes and enforces is
2, not 5. -/
theorem C7_counterexample :
    ReachMain mainSessionAfterTwo ∧
    mainSessionAfterTwo.interruption_count = 2 ∧
    mainSessionAfterTwo.interruption_count < sessionStateMaxInterruptionsDefault ∧
    (mainCheckInterruption mainSessionAfterTwo true).2 = CheckOutcome.maxReached ∧
    (mainCheckInterruption mainSessionAfterTwo true).1.interruption_count = 2 := by
  refine ⟨?_, by decide, by decide, by decide, by decide⟩
  exact ReachMain.step _ true (ReachMain.step _ true ReachMain.start)

/-- Claim C7 (amended): on every reachable `main.py` session the number of
granted interruptions never exceeds the session's `max_interruptions` cap;
that cap is `config.MAX_INTERRUPTIONS_PER_SESSION = 2` (not the unused
`SessionState` field default of 5); and once the count has reached the
cap, every further `check_interruption` call grants nothing and leaves the
session unchanged. -/
theorem C7_interruption_cap :
    (∀ s, ReachMain s →
      s.interruption_count ≤ s.max_interruptions ∧
      s.max_interruptions = MAX_INTERRUPTIONS_PER_SESSION) ∧
    (∀ s fires, s.interruption_count ≥ s.max_interruptions →
      (mainCheckInterruption s fires).2 ≠ CheckOutcome.interrupted ∧
      (mainCheckInterruption s fires).1 = s) ∧
    mainInitSession.max_interruptions = MAX_INTERRUPTIONS_PER_SESSION := by
  refine ⟨?_, ?_, rfl⟩
  · intro s h
    induction h with
    | start => exact ⟨by decide, rfl⟩
    | step s2 fires _ ih =>
      unfold mainCheckInterruption
      split_ifs <;> simp_all <;> omega
  · intro s fires h
    unfold mainCheckInterruption
    rw [if_neg (by simp [ENABLE_INTERRUPTIONS]), if_pos h]
    exact ⟨by simp, rfl⟩

/-- Witness for C7 at concrete inputs. -/
theorem C7_witness :
    mainInitSession.interruption_count ≤ mainInitSession.max_interruptions ∧
    mainSessionAfterTwo.interruption_count ≥ mainSessionAfterTwo.max_interruptions ∧
    (mainCheckInterruption mainSessionAfterTwo true).2 ≠ CheckOutcome.interrupted :=
  ⟨(C7_interruption_cap.1 mainInitSession ReachMain.start).1,
   by decide,
   (C7_interruption_cap.2.1 mainSessionAfterTwo true (by decide)).1⟩

/-! ## Claim C9 — parser resilience (code bug) -/

/-- Claim C9 says every possible LLM output string yields a structurally
complete evaluation instead of an error.  Evaluating the code at the
failing input `"TECHNICAL_DEPTH: 150"`: the tolerant parser accepts the
out-of-range score 150 into `scores`, and the pydantic validation of
`AnswerEvaluation` then raises instead of returning an evaluation —
contradicting the resilience policy the code's own comments state.  (The
evaluator has no handler around the model construction, so the error
propagates to the caller of `evaluate`.) -/
theorem C9_out_of_range_score_raises :
    dictGet (parseTechCore outOfRangeRaw 1).scores Dim.technical_depth 0 = 150 ∧
    errorOf (parseTechnicalEvaluation outOfRangeRaw 1) =
      some "Score must be between 0-100" := by
  exact ⟨by decide, by decide⟩

/-! ## Claim C3 — follow-up decision predicate (code bug) -/

/-- Claim C3's suppression clause "the previous Q/A record has
`triggered_followup=true`" never fires in the code: `process_answer`
appends the current answer's record and resets its `triggered_followup` to
`False` *before* `_should_ask_followup` reads `conversation_history[-1]`,
so RULE 2 inspects the just-appended record instead of the previous one.
Evaluating the code at the failing input: the previous record has
`triggered_followup = true` and the caller does not mark the answer as a
follow-up answer, the spec therefore demands suppression, yet a short
answer still triggers a follow-up and the budget rises to 2. -/
theorem C3_previous_record_rule_dead :
    (prevTriggeredState.conversation_history.map QARec.triggered_followup) = [true] ∧
    shortAnswerInput.is_followup_answer = false ∧
    prevTriggeredState.followup_count = 1 ∧
    (pyWords shortAnswerInput.answer_text).length < 30 ∧
    isFollowupResult (processAnswer prevTriggeredState shortAnswerInput).2 = true ∧
    (processAnswer prevTriggeredState shortAnswerInput).1.followup_count = 2 := by
  exact ⟨rfl, rfl, rfl, by decide, by decide, by decide⟩

/-! ## Claim C8 — follow-up accounting (corrected) -/

/-- Counterexample to claim C8's "at all times": right after a follow-up
is issued (an honestly reachable state), `followup_count` is 1 while no
Q/A record carries `is_followup_answer = true` yet. -/
theorem C8_counterexample :
    ReachDriver (processAnswer startState lowInput).1 true ∧
    (processAnswer startState lowInput).1.followup_count = 1 ∧
    flaggedCount (processAnswer startState lowInput).1.conversation_history = 0 := by
  refine ⟨?_, by decide, by decide⟩
  have he : isFollowupResult (processAnswer startState lowInput).2 = true := by decide
  have h := ReachDriver.step startState false lowInput ReachDriver.start rfl
  rw [he] at h
  exact h

/-- Claim C8 (amended): on every honestly driven reachable state,
`followup_count` equals the number of records flagged
`is_followup_answer=true` plus one exactly while a follow-up is
outstanding (so the two agree whenever no follow-up is pending), and both
quantities never exceed 2. -/
theorem C8_followup_accounting :
    ∀ s out, ReachDriver s out →
      s.followup_count =
        flaggedCount s.conversation_history + (if out then 1 else 0) ∧
      s.followup_count ≤ 2 ∧
      flaggedCount s.conversation_history ≤ 2 := by
  intro s out h
  induction h with
  | start => exact ⟨rfl, by decide, by decide⟩
  | step s2 out2 inp _ hhon ih =>
    obtain ⟨hA, hB, hC⟩ := processAnswer_followup_anatomy s2 inp
    obtain ⟨ih1, ih2, ih3⟩ := ih
    subst hhon
    rcases Bool.eq_false_or_eq_true (isFollowupResult (processAnswer s2 inp).2)
      with hr | hr
    · obtain ⟨hfu, hlt⟩ := hC hr
      simp only [hr, hfu] at hA hB ih1 ⊢
      simp at hA hB ih1 ⊢
      omega
    · rcases Bool.eq_false_or_eq_true inp.is_followup_answer with h2 | h2 <;>
        simp only [hr, h2] at hA hB ih1 ⊢ <;>
        simp at hA hB ih1 ⊢ <;>
        omega

/-- Witness for C8 at a concrete trace: the start state (no outstanding
follow-up) satisfies the accounting equation with both sides 0. -/
theorem C8_witness :
    startState.followup_count =
      flaggedCount startState.conversation_history + (if false then 1 else 0) ∧
    startState.followup_count ≤ 2 :=
  ⟨(C8_followup_accounting startState false ReachDriver.start).1,
   (C8_followup_accounting startState false ReachDriver.start).2.1⟩

/-! ## Claims C6 and C10 — interruption decision logic (confirmed) -/

theorem insertSorted_perm (a : Trig) (l : List Trig) :
    List.Perm (insertSorted a l) (a :: l) := by
  induction l with
  | nil => rfl
  | cons b rest ih =>
    unfold insertSorted
    split
    · exact (ih.cons b).trans (List.Perm.swap a b rest)
    · rfl

theorem sortTrigs_perm (l : List Trig) : List.Perm (sortTrigs l) l := by
  induction l with
  | nil => rfl
  | cons a rest ih =>
    exact (insertSorted_perm a (sortTrigs rest)).trans (ih.cons a)

/-- Weight-descending predicate used for sortedness. -/
def trigDesc (a b : Trig) : Prop := b.weight ≤ a.weight

theorem insertSorted_sorted (a : Trig) (l : List Trig)
    (h : l.Pairwise trigDesc) : (insertSorted a l).Pairwise trigDesc := by
  induction l with
  | nil => simp [insertSorted]
  | cons b rest ih =>
    rcases List.pairwise_cons.mp h with ⟨hb, hrest⟩
    unfold insertSorted
    split
    · rename_i hlt
      refine List.pairwise_cons.mpr ⟨?_, ih hrest⟩
      intro t ht
      rcases List.mem_cons.mp ((insertSorted_perm a rest).mem_iff.mp ht)
        with rfl | htr
      · simp only [trigDesc]
        omega
      · exact hb t htr
    · rename_i hnlt
      refine List.pairwise_cons.mpr ⟨?_, h⟩
      intro t ht
      rcases List.mem_cons.mp ht with rfl | htr
      · simp only [trigDesc]
        omega
      · have h1 := hb t htr
        simp only [trigDesc] at h1 ⊢
        omega

theorem sortTrigs_sorted (l : List Trig) :
    (sortTrigs l).Pairwise trigDesc := by
  induction l with
  | nil => exact List.Pairwise.nil
  | cons a rest ih => exact insertSorted_sorted a (sortTrigs rest) ih

/-- Claim C6: whenever at least one trigger fires,
`analyze_for_interruption` selects a trigger of maximal weight, advances
that reason's per-session occurrence counter by one, and the action is
`interrupt` exactly when the advanced counter has reached the reason's
configured threshold (otherwise `warn`). -/
theorem C6_decision_logic (w : Warnings) (sid : String)
    (trigs : List Trig) (h : trigs ≠ []) :
    ∃ dec top,
      (analyzeDecision w sid trigs).1 = some dec ∧
      top ∈ trigs ∧
      dec.reason = top.reason ∧
      dec.weight = top.weight ∧
      (∀ t ∈ trigs, t.weight ≤ top.weight) ∧
      dec.occurrence_count = dictGet (dictGet w sid []) top.reason 0 + 1 ∧
      dec.threshold = (severityOf top.reason).2 ∧
      (analyzeDecision w sid trigs).2 =
        dictSet w sid
          (dictSet (dictGet w sid []) top.reason dec.occurrence_count) ∧
      (dec.action = "interrupt" ↔ dec.occurrence_count ≥ dec.threshold) ∧
      (dec.action = "interrupt" ∨ dec.action = "warn") := by
  have hp := sortTrigs_perm trigs
  have hsort := sortTrigs_sorted trigs
  cases hs : sortTrigs trigs with
  | nil =>
    rw [hs] at hp
    exact absurd hp.symm.eq_nil h
  | cons top rest =>
    rw [hs] at hp hsort
    have hd : analyzeDecision w sid trigs =
        (some
          { action :=
              if dictGet (dictGet w sid []) top.reason 0 + 1 ≥
                  (severityOf top.reason).2 then "interrupt" else "warn"
            reason := top.reason
            weight := top.weight
            occurrence_count := dictGet (dictGet w sid []) top.reason 0 + 1
            threshold := (severityOf top.reason).2 },
         dictSet w sid
           (dictSet (dictGet w sid []) top.reason
             (dictGet (dictGet w sid []) top.reason 0 + 1))) := by
      unfold analyzeDecision
      rw [hs]
    refine ⟨_, top, by rw [hd], hp.mem_iff.mp (List.mem_cons_self top rest),
      rfl, rfl, ?_, rfl, rfl, by rw [hd], ?_, ?_⟩
    · intro t ht
      rcases List.mem_cons.mp (hp.mem_iff.mpr ht) with rfl | htr
      · exact le_refl _
      · exact (List.pairwise_cons.mp hsort).1 t htr
    · by_cases hocc : dictGet (dictGet w sid []) top.reason 0 + 1 ≥
          (severityOf top.reason).2
      · simp [hocc]
      · simp only [if_neg hocc]
        exact ⟨fun hw => absurd hw (by decide), fun hge => absurd hge hocc⟩
    · by_cases hocc : dictGet (dictGet w sid []) top.reason 0 + 1 ≥
          (severityOf top.reason).2 <;> simp [hocc]

/-- Witness for C6: a `CONTRADICTION` trigger (weight 95, threshold 1)
co-occurring with a lower-weight lexical trigger is selected and produces
`interrupt` on its first detection. -/
theorem C6_witness :
    ([minorRamblingTrig, contradictionTrig] : List Trig) ≠ [] ∧
    (∃ dec top,
      (analyzeDecision [] "s1" [minorRamblingTrig, contradictionTrig]).1 =
        some dec ∧
      top ∈ [minorRamblingTrig, contradictionTrig] ∧
      dec.reason = top.reason ∧
      dec.weight = top.weight ∧
      (∀ t ∈ [minorRamblingTrig, contradictionTrig], t.weight ≤ top.weight) ∧
      dec.occurrence_count =
        dictGet (dictGet [] "s1" []) top.reason 0 + 1 ∧
      dec.threshold = (severityOf top.reason).2 ∧
      (analyzeDecision [] "s1" [minorRamblingTrig, contradictionTrig]).2 =
        dictSet [] "s1"
          (dictSet (dictGet [] "s1" []) top.reason dec.occurrence_count) ∧
      (dec.action = "interrupt" ↔ dec.occurrence_count ≥ dec.threshold) ∧
      (dec.action = "interrupt" ∨ dec.action = "warn")) ∧
    (analyzeDecision [] "s1" [minorRamblingTrig, contradictionTrig]).1 =
      some { action := "interrupt", reason := "CONTRADICTION", weight := 95,
             occurrence_count := 1, threshold := 1 } :=
  ⟨by decide,
   C6_decision_logic [] "s1" [minorRamblingTrig, contradictionTrig] (by decide),
   by decide⟩

theorem dictGet_clearSession_ne (w : Warnings) (sid sid2 : String)
    (h : sid2 ≠ sid) :
    dictGet (clearSession w sid) sid2 [] = dictGet w sid2 [] := by
  induction w with
  | nil => rfl
  | cons p rest ih =>
    by_cases hp : p.1 = sid
    · rw [show clearSession (p :: rest) sid = clearSession rest sid from by
        simp [clearSession, List.filter_cons, hp]]
      rw [ih]
      have hne2 : p.1 ≠ sid2 := fun hc => h (by rw [← hc, hp])
      simp [dictGet, hne2]
    · rw [show clearSession (p :: rest) sid = p :: clearSession rest sid from by
        simp [clearSession, List.filter_cons, hp]]
      by_cases hp2 : p.1 = sid2 <;> simp [dictGet, hp2, ih]

theorem dictGet_clearSession_self (w : Warnings) (sid : String) :
    dictGet (clearSession w sid) sid [] = [] := by
  induction w with
  | nil => rfl
  | cons p rest ih =>
    by_cases hp : p.1 = sid
    · rw [show clearSession (p :: rest) sid = clearSession rest sid from by
        simp [clearSession, List.filter_cons, hp]]
      exact ih
    · rw [show clearSession (p :: rest) sid = p :: clearSession rest sid from by
        simp [clearSession, List.filter_cons, hp]]
      simp [dictGet, hp, ih]

/-- Claim C10: a decision advances only the selected reason's counter in
the selected session — every other (session, reason) counter is
untouched —, a triggerless check changes nothing, and counters persist
until `clear_session` deletes exactly that session's entries. -/
theorem C10_counter_isolation :
    (∀ (w : Warnings) (sid : String) (trigs : List Trig) dec w2,
      analyzeDecision w sid trigs = (some dec, w2) →
      ∀ (sid2 r : String), sid2 ≠ sid ∨ r ≠ dec.reason →
        dictGet (dictGet w2 sid2 []) r 0 = dictGet (dictGet w sid2 []) r 0) ∧
    (∀ (w : Warnings) (sid : String) (trigs : List Trig),
      (analyzeDecision w sid trigs).1 = none →
      (analyzeDecision w sid trigs).2 = w) ∧
    (∀ (w : Warnings) (sid sid2 r : String), sid2 ≠ sid →
      dictGet (dictGet (clearSession w sid) sid2 []) r 0 =
        dictGet (dictGet w sid2 []) r 0) ∧
    (∀ (w : Warnings) (sid : String),
      dictGet (clearSession w sid) sid [] = []) := by
  refine ⟨?_, ?_, ?_, ?_⟩
  · intro w sid trigs dec w2 heq sid2 r hne
    cases hs : sortTrigs trigs with
    | nil =>
      have hnone : analyzeDecision w sid trigs = (none, w) := by
        unfold analyzeDecision
        rw [hs]
      rw [hnone] at heq
      simp at heq
    | cons top rest =>
      have hd : analyzeDecision w sid trigs =
          (some
            { action :=
                if dictGet (dictGet w sid []) top.reason 0 + 1 ≥
                    (severityOf top.reason).2 then "interrupt" else "warn"
              reason := top.reason
              weight := top.weight
              occurrence_count := dictGet (dictGet w sid []) top.reason 0 + 1
              threshold := (severityOf top.reason).2 },
           dictSet w sid
             (dictSet (dictGet w sid []) top.reason
               (dictGet (dictGet w sid []) top.reason 0 + 1))) := by
        unfold analyzeDecision
        rw [hs]
      rw [hd] at heq
      have hw2 := (Prod.mk.injEq _ _ _ _ ▸ heq : _ ∧ _).2
      have hdec := Option.some.inj (Prod.mk.injEq _ _ _ _ ▸ heq : _ ∧ _).1
      rcases hne with hne | hne
      · rw [← hw2, dictGet_dictSet_ne _ _ _ _ _ hne]
      · have hrne : r ≠ top.reason := by
          rw [← hdec] at hne
          exact hne
        by_cases hsid : sid2 = sid
        · subst hsid
          rw [← hw2, dictGet_dictSet_self, dictGet_dictSet_ne _ _ _ _ _ hrne]
        · rw [← hw2, dictGet_dictSet_ne _ _ _ _ _ hsid]
  · intro w sid trigs hnone
    cases hs : sortTrigs trigs with
    | nil =>
      have : analyzeDecision w sid trigs = (none, w) := by
        unfold analyzeDecision
        rw [hs]
      rw [this]
    | cons top rest =>
      have hd : (analyzeDecision w sid trigs).1 = some
          { action :=
              if dictGet (dictGet w sid []) top.reason 0 + 1 ≥
                  (severityOf top.reason).2 then "interrupt" else "warn"
            reason := top.reason
            weight := top.weight
            occurrence_count := dictGet (dictGet w sid []) top.reason 0 + 1
            threshold := (severityOf top.reason).2 } := by
        unfold analyzeDecision
        rw [hs]
      rw [hd] at hnone
      exact absurd hnone (by simp)
  · intro w sid sid2 r hne
    rw [dictGet_clearSession_ne w sid sid2 hne]
  · exact dictGet_clearSession_self

/-- Witness for C10 at concrete inputs: a `CONTRADICTION` decision for
session `s2` leaves session `s1`'s `VAGUE_ANSWER` counter untouched, and
clearing `s2` keeps `s1` intact while emptying `s2`. -/
theorem C10_witness :
    dictGet (dictGet [("s1", [("VAGUE_ANSWER", 1)]),
        ("s2", [("CONTRADICTION", 1)])] "s1" []) "VAGUE_ANSWER" 0 =
      dictGet (dictGet [("s1", [("VAGUE_ANSWER", 1)])] "s1" [])
        "VAGUE_ANSWER" 0 ∧
    dictGet (clearSession [("s1", [("VAGUE_ANSWER", 1)]),
        ("s2", [("CONTRADICTION", 1)])] "s2") "s2" [] = [] :=
  ⟨C10_counter_isolation.1 [("s1", [("VAGUE_ANSWER", 1)])] "s2"
      [contradictionTrig]
      { action := "interrupt", reason := "CONTRADICTION", weight := 95,
        occurrence_count := 1, threshold := 1 }
      [("s1", [("VAGUE_ANSWER", 1)]), ("s2", [("CONTRADICTION", 1)])]
      (by decide) "s1" "VAGUE_ANSWER" (Or.inl (by decide)),
   C10_counter_isolation.2.2.2
     [("s1", [("VAGUE_ANSWER", 1)]), ("s2", [("CONTRADICTION", 1)])] "s2"⟩

/-! ## Claim C5 — overall score computation (corrected) -/

/-- Counterexample to the exact-floor claim (P3): on the LLM output
`"TECHNICAL_DEPTH: 6\nSTRUCTURED_THINKING: 1"` the code computes
`int(6*0.3 + 1*0.2)` in binary64, which is `int(1.9999999999999998) = 1`,
while `floor(0.30·6 + 0.20·1) = floor(2) = 2`. -/
theorem C5_counterexample :
    (parseTechCore floatEdgeRaw 1).overall_score = 1 ∧
    specWeightedScore (parseTechCore floatEdgeRaw 1).scores = 2 :=
  ⟨by decide, by decide⟩

/-- Claim C5 (amended): `overall_score` is always recomputed from the
(possibly defaulted) dimension scores by `calculate_weighted_score` — the
binary64 evaluation of the weighted sum truncated to `int` — both by the
parser and by the claim-based adjustment; the parser has no field for an
LLM-supplied overall at all.  The result coincides with the exact
`floor(Σ wᵢ·scoreᵢ)` except for float-rounding cases such as the
counterexample. -/
theorem C5_overall_recomputed :
    (∀ (raw : String) (qid : ℤ),
      (parseTechCore raw qid).overall_score =
        calculate_weighted_score (parseTechCore raw qid).scores) ∧
    (∀ (ev : ParsedEval) (claims : List ClaimIn), claims ≠ [] →
      (enhanceWithClaims ev claims).overall_score =
        calculate_weighted_score (enhanceWithClaims ev claims).scores) := by
  constructor
  · intro raw qid
    unfold parseTechCore
    generalize applyFallback (parseLoopSt raw) = st
    rfl
  · intro ev claims h
    unfold enhanceWithClaims
    rw [if_neg h]

/-- Witness for C5 at concrete inputs: the malformed scenario-6 output and
a contradictory-claim adjustment both carry a recomputed overall. -/
theorem C5_witness :
    ([contradictoryClaim] : List ClaimIn) ≠ [] ∧
    (parseTechCore scenario6Raw 1).overall_score =
      calculate_weighted_score (parseTechCore scenario6Raw 1).scores ∧
    (enhanceWithClaims goodEval [contradictoryClaim]).overall_score =
      calculate_weighted_score
        (enhanceWithClaims goodEval [contradictoryClaim]).scores :=
  ⟨by decide,
   C5_overall_recomputed.1 scenario6Raw 1,
   C5_overall_recomputed.2 goodEval [contradictoryClaim] (by decide)⟩

/-! ## Claim C4 — phase transition rule (corrected) -/

theorem appendRecord_claims (s : OrchState) (inp : ProcessInput) :
    (appendRecord s inp).unverified_claims = s.unverified_claims := by
  unfold appendRecord
  split <;> rfl

/-- Counterexample to "after each processed answer, a phase transition …
occurs exactly when (a)∨(b)∨(c)": at question 2 of the demo flow the
`resume_deep_dive` counter reaches `force_transition_after = 2`, so the
spec predicate holds, yet the low-scoring answer triggers a follow-up and
`process_answer` returns before the phase-transition check — the phase
stays `resume_deep_dive`. -/
theorem C4_counterexample :
    q2State.current_phase = Phase.resume_deep_dive ∧
    q2State.questions_in_current_phase = 1 ∧
    phaseRule Phase.resume_deep_dive = some rddCfg ∧
    (appendRecord q2State lowInput).questions_in_current_phase = 2 ∧
    specTransitionPredicate rddCfg 2 55 ∧
    isFollowupResult (processAnswer q2State lowInput).2 = true ∧
    (processAnswer q2State lowInput).1.current_phase =
      Phase.resume_deep_dive := by
  refine ⟨by decide, by decide, by decide, by decide, ?_, by decide, by decide⟩
  exact Or.inl (by decide)

/-- Claim C4 (amended): on the normal path — the hard stop not reached and
no follow-up issued — `process_answer` transitions the phase exactly when
the incremented phase counter reaches `force_transition_after`, and under
the shipped demo preset that code condition coincides with the spec's
(a)∨(b)∨(c) for every phase-average score; on the hard-stop and follow-up
paths the phase never changes even when (a)∨(b)∨(c) holds. -/
theorem C4_phase_transition (s : OrchState) (inp : ProcessInput) (avg : ℚ) :
    (s.actual_question_number ≥ maxTotalQuestions →
      (processAnswer s inp).1.current_phase = s.current_phase) ∧
    (isFollowupResult (processAnswer s inp).2 = true →
      (processAnswer s inp).1.current_phase = s.current_phase) ∧
    (s.actual_question_number < maxTotalQuestions →
      isFollowupResult (processAnswer s inp).2 = false →
      (processAnswer s inp).1.current_phase =
        (if phaseForce s.current_phase ≤
            (appendRecord s inp).questions_in_current_phase
         then getNextPhase s else s.current_phase)) ∧
    (∀ cfg, phaseRule s.current_phase = some cfg →
      ((appendRecord s inp).questions_in_current_phase ≥
          cfg.force_transition_after ↔
        specTransitionPredicate cfg
          (appendRecord s inp).questions_in_current_phase avg)) := by
  have hdq : (difficultyAdjusted (appendRecord s inp) inp.evaluation).questions_in_current_phase
      = (appendRecord s inp).questions_in_current_phase := rfl
  have hdp : (difficultyAdjusted (appendRecord s inp) inp.evaluation).current_phase
      = s.current_phase := appendRecord_phase s inp
  have hnx : getNextPhase (difficultyAdjusted (appendRecord s inp) inp.evaluation)
      = getNextPhase s :=
    getNextPhase_congr _ _ hdp (appendRecord_claims s inp)
  refine ⟨?_, ?_, ?_, ?_⟩
  · intro h
    unfold processAnswer
    rw [if_pos h]
    exact appendRecord_phase s inp
  · intro hf
    unfold processAnswer at hf ⊢
    by_cases h1 : s.actual_question_number ≥ maxTotalQuestions
    · rw [if_pos h1] at hf
      exact absurd hf (by simp [isFollowupResult])
    · rw [if_neg h1] at hf ⊢
      by_cases h2 : shouldAskFollowup inp.evaluation inp.answer_text
          (appendRecord s inp) inp.is_followup_answer s.actual_question_number ∧
          generateFollowupQuestion inp.evaluation inp.followupLLM ≠ ""
      · rw [if_pos h2]
        exact (followupBranchState_phase _).trans (appendRecord_phase s inp)
      · rw [if_neg h2] at hf
        by_cases h3 : (difficultyAdjusted (appendRecord s inp) inp.evaluation).questions_in_current_phase
            ≥ phaseForce (difficultyAdjusted (appendRecord s inp) inp.evaluation).current_phase
        · rw [if_pos h3] at hf
          by_cases h4 : (transitionedState (difficultyAdjusted (appendRecord s inp) inp.evaluation)).current_phase
              = Phase.completed
          · rw [if_pos h4] at hf
            exact absurd hf (by simp [isFollowupResult])
          · rw [if_neg h4] at hf
            exact absurd hf (by simp [isFollowupResult, continueNextQuestion])
        · rw [if_neg h3] at hf
          exact absurd hf (by simp [isFollowupResult, continueNextQuestion])
  · intro h1 hf
    unfold processAnswer at hf ⊢
    rw [if_neg (by omega : ¬ s.actual_question_number ≥ maxTotalQuestions)]
      at hf ⊢
    by_cases h2 : shouldAskFollowup inp.evaluation inp.answer_text
        (appendRecord s inp) inp.is_followup_answer s.actual_question_number ∧
        generateFollowupQuestion inp.evaluation inp.followupLLM ≠ ""
    · rw [if_pos h2] at hf
      exact absurd hf (by simp [isFollowupResult])
    · rw [if_neg h2]
      by_cases h3 : (difficultyAdjusted (appendRecord s inp) inp.evaluation).questions_in_current_phase
          ≥ phaseForce (difficultyAdjusted (appendRecord s inp) inp.evaluation).current_phase
      · rw [if_pos h3]
        have hcond : phaseForce s.current_phase ≤
            (appendRecord s inp).questions_in_current_phase := by
          rw [hdq, hdp] at h3
          exact h3
        rw [if_pos hcond]
        by_cases h4 : (transitionedState (difficultyAdjusted (appendRecord s inp) inp.evaluation)).current_phase
            = Phase.completed
        · rw [if_pos h4]
          show (transitionedState _).current_phase = getNextPhase s
          rw [show (transitionedState (difficultyAdjusted (appendRecord s inp) inp.evaluation)).current_phase
              = getNextPhase (difficultyAdjusted (appendRecord s inp) inp.evaluation) from rfl]
          exact hnx
        · rw [if_neg h4]
          show (transitionedState _).current_phase = getNextPhase s
          rw [show (transitionedState (difficultyAdjusted (appendRecord s inp) inp.evaluation)).current_phase
              = getNextPhase (difficultyAdjusted (appendRecord s inp) inp.evaluation) from rfl]
          exact hnx
      · rw [if_neg h3]
        have hcond : ¬ phaseForce s.current_phase ≤
            (appendRecord s inp).questions_in_current_phase := by
          rw [hdq, hdp] at h3
          exact h3
        rw [if_neg hcond]
        show (difficultyAdjusted (appendRecord s inp) inp.evaluation).current_phase
          = s.current_phase
        exact hdp
  · intro cfg hcfg
    have key : ∀ c : PhaseCfg, c.transition_score = 0 →
        c.min_questions = c.force_transition_after →
        ((appendRecord s inp).questions_in_current_phase ≥
            c.force_transition_after ↔
          specTransitionPredicate c
            (appendRecord s inp).questions_in_current_phase avg) := by
      intro c h0 hmf
      unfold specTransitionPredicate
      rw [h0, hmf]
      constructor
      · intro hge
        exact Or.inl hge
      · intro hsp
        rcases hsp with hge | ⟨_, _, hpos⟩ | ⟨_, hmin⟩
        · exact hge
        · exact absurd hpos (by decide)
        · exact hmin
    cases hp : s.current_phase <;> rw [hp] at hcfg
    · rw [show phaseRule Phase.not_started = none from by decide] at hcfg
      exact Option.noConfusion hcfg
    · rw [show phaseRule Phase.resume_deep_dive = some rddCfg from by decide]
        at hcfg
      injection hcfg with h3
      rw [← h3]
      exact key _ rfl rfl
    · rw [show phaseRule Phase.core_skill_assessment =
          some { min_questions := 3, max_questions := 3, transition_score := 0,
                 force_transition_after := 3, skip_if_no_claims := false }
          from by decide] at hcfg
      injection hcfg with h3
      rw [← h3]
      exact key _ rfl rfl
    · rw [show phaseRule Phase.scenario_solving =
          some { min_questions := 0, max_questions := 0, transition_score := 0,
                 force_transition_after := 0, skip_if_no_claims := false }
          from by decide] at hcfg
      injection hcfg with h3
      rw [← h3]
      exact key _ rfl rfl
    · rw [show phaseRule Phase.stress_testing =
          some { min_questions := 0, max_questions := 0, transition_score := 0,
                 force_transition_after := 0, skip_if_no_claims := false }
          from by decide] at hcfg
      injection hcfg with h3
      rw [← h3]
      exact key _ rfl rfl
    · rw [show phaseRule Phase.claim_verification =
          some { min_questions := 0, max_questions := 0, transition_score := 0,
                 force_transition_after := 0, skip_if_no_claims := true }
          from by decide] at hcfg
      injection hcfg with h3
      rw [← h3]
      exact key _ rfl rfl
    · rw [show phaseRule Phase.wrap_up =
          some { min_questions := 0, max_questions := 0, transition_score := 0,
                 force_transition_after := 0, skip_if_no_claims := false }
          from by decide] at hcfg
      injection hcfg with h3
      rw [← h3]
      exact key _ rfl rfl
    · rw [show phaseRule Phase.completed = none from by decide] at hcfg
      exact Option.noConfusion hcfg

/-- Witness for C4 at concrete inputs: the first demo answer does not
transition (`1 < force_after = 2`) and the demo `resume_deep_dive` entry's
code condition matches the spec predicate. -/
theorem C4_witness :
    startState.actual_question_number < maxTotalQuestions ∧
    isFollowupResult (processAnswer startState goodInput).2 = false ∧
    (processAnswer startState goodInput).1.current_phase =
      (if phaseForce startState.current_phase ≤
          (appendRecord startState goodInput).questions_in_current_phase
       then getNextPhase startState else startState.current_phase) ∧
    ((appendRecord startState goodInput).questions_in_current_phase ≥
        rddCfg.force_transition_after ↔
      specTransitionPredicate rddCfg
        (appendRecord startState goodInput).questions_in_current_phase 0) :=
  ⟨by decide, by decide,
   (C4_phase_transition startState goodInput 0).2.2.1 (by decide) (by decide),
   (C4_phase_transition startState goodInput 0).2.2.2 rddCfg (by decide)⟩

/-! ## Claim C1 — dimension fallback of the evaluation parser (corrected) -/

/-- Counterexample to claim C1's quoted fallback strings: for the empty
LLM output every injected `score_details` entry carries the code's actual
strings, which differ from the claim's
`"no evaluation data from LLM"` / `"unable to assess"`. -/
theorem C1_counterexample :
    ((parseTechCore "" 1).score_details.map EvalScore.evidence) =
      List.replicate 5 fallbackEvidence ∧
    ((parseTechCore "" 1).score_details.map EvalScore.improvement) =
      List.replicate 5 (some fallbackImprovement) ∧
    fallbackEvidence ≠ "no evaluation data from LLM" ∧
    fallbackImprovement ≠ "unable to assess" :=
  ⟨by decide, by decide, by decide, by decide⟩

/-- Claim C1 (amended): for every LLM output string the parsed evaluation
contains all five dimensions; every dimension absent from the output is
injected with score 0, and — when the output built no detail entry for
it — with evidence `"No evaluation data available from LLM response"` and
improvement `"Unable to assess - LLM did not return this dimension"`; and
for the empty input all five scores are 0, `overall_score` is 0 and
`difficulty_adjustment` is `"maintain"`. -/
theorem C1_dimension_fallback :
    (∀ (raw : String) (qid : ℤ) (d : Dim), d ∈ requiredDimensions →
      dictHas (parseTechCore raw qid).scores d = true) ∧
    (∀ (raw : String) (qid : ℤ) (d : Dim), d ∈ requiredDimensions →
      dictHas (parseLoopSt raw).scores d = false →
      dictGet (parseTechCore raw qid).scores d 1 = 0 ∧
      ((parseLoopSt raw).details.any (fun sd => sd.dimension = d) = false →
        fallbackEntry d ∈ (parseTechCore raw qid).score_details)) ∧
    (parseTechCore "" 1).scores = requiredDimensions.map (fun d => (d, 0)) ∧
    (parseTechCore "" 1).overall_score = 0 ∧
    (parseTechCore "" 1).difficulty_adjustment = "maintain" := by
  have hsc : ∀ (raw : String) (qid : ℤ), (parseTechCore raw qid).scores =
      (requiredDimensions.foldl fallbackStep (parseLoopSt raw)).scores := by
    intro raw qid
    unfold parseTechCore applyFallback
    generalize parseLoopSt raw = st0
    rfl
  have hdet : ∀ (raw : String) (qid : ℤ),
      (parseTechCore raw qid).score_details =
        (requiredDimensions.foldl fallbackStep (parseLoopSt raw)).details := by
    intro raw qid
    unfold parseTechCore applyFallback
    generalize parseLoopSt raw = st0
    rfl
  refine ⟨?_, ?_, by decide, by decide, by decide⟩
  · intro raw qid d hd
    rw [hsc]
    exact foldl_fallback_has _ _ _ hd
  · intro raw qid d hd hmiss
    constructor
    · rw [hsc]
      exact foldl_fallback_get_zero _ _ _ _ hd hmiss
    · intro hno
      rw [hdet]
      exact foldl_fallback_details _ _ _ hd hmiss hno

/-- Witness for C1 at the scenario-6 output (`TECHNICAL_DEPTH` present,
the other four dimensions omitted by the LLM). -/
theorem C1_witness :
    (Dim.technical_depth ∈ requiredDimensions) ∧
    dictHas (parseTechCore scenario6Raw 1).scores Dim.technical_depth = true ∧
    dictHas (parseLoopSt scenario6Raw).scores Dim.concept_accuracy = false ∧
    dictGet (parseTechCore scenario6Raw 1).scores Dim.concept_accuracy 1 = 0 ∧
    fallbackEntry Dim.concept_accuracy ∈
      (parseTechCore scenario6Raw 1).score_details :=
  ⟨by decide,
   C1_dimension_fallback.1 scenario6Raw 1 Dim.technical_depth (by decide),
   by decide,
   (C1_dimension_fallback.2.1 scenario6Raw 1 Dim.concept_accuracy
     (by decide) (by decide)).1,
   (C1_dimension_fallback.2.1 scenario6Raw 1 Dim.concept_accuracy
     (by decide) (by decide)).2 (by decide)⟩

end InternAI
